import Mathlib

/-!
Verification of the declaration-level parser and printer (`src/item.rs`,
`src/partial_borrows.rs`) of the `syn` fork.

The token model follows the external tokenizer interface described in the
spec (§6): a stream of identifiers, punctuation, literals, lifetimes and
nested delimited groups.  Parsers are shallow embeddings of the Rust
`Parse` impls; printers embed the `ToTokens` impls.  Sub-grammars that the
spec places out of scope (types, expressions, patterns, visibility,
attributes internals) live in source files that are not part of this
repository snapshot; those are modelled from the spec and marked as such
in their doc comments.
-/

set_option maxHeartbeats 1000000

namespace Syn

/-- Delimiter kinds of nested token groups (spec §6: parenthesis, brace,
bracket; the implicit kind never occurs in the claims). -/
inductive Delim where
  | paren
  | brace
  | bracket
deriving DecidableEq, Repr

/-- An atomic lexical token or a nested group, as handed over by the
external tokenizer (spec §6).  Compound operators such as `::` or `->`
are carried as single punctuation tokens. -/
inductive Tok where
  | ident (s : String)
  | punct (s : String)
  | lit (s : String)
  | lifetime (s : String)
  | group (d : Delim) (ts : List Tok)

/-- Render a token back to text (debugging aid only; groups restore their
delimiters). -/
def Tok.render : Tok → String
  | .ident s => s
  | .punct s => s
  | .lit s => s
  | .lifetime s => "'" ++ s
  | .group d ts =>
      let inner := String.intercalate " " (ts.attach.map (fun t => t.1.render))
      match d with
      | .paren => "( " ++ inner ++ " )"
      | .brace => "\x7b " ++ inner ++ " \x7d"
      | .bracket => "[ " ++ inner ++ " ]"
decreasing_by
  have := List.sizeOf_lt_of_mem t.2
  simp only [Tok.group.sizeOf_spec]
  omega

instance : Repr Tok := ⟨fun t _ => t.render⟩

/-- A parse error: the accumulated expected-token descriptions and the
position of the offending token, measured as the number of tokens
remaining in the stream at the point of failure. -/
structure Err where
  expected : List String
  pos : Nat
deriving DecidableEq, Repr

/-- Modelled from the spec: the diagnostic channel is a message+span pair;
the message aggregates all expectations tried at the failure position. -/
def Err.message (e : Err) : String :=
  "expected one of: " ++ String.intercalate ", " e.expected

/-- Words that the `Ident` token type refuses to treat as a plain
identifier.  Modelled from the spec: lookahead for an identifier accepts
any word that is not a reserved keyword of the language.  The reserved
keywords that also head declaration forms (`async`, `extern`, `fn`, ...)
must be rejected here, or the dispatch's keyword alternatives (e.g. the
`async` arm of the `const` fork, src/item.rs line 1177) could never
fire; contextual keywords (`union`, `auto`, `default`, `existential`)
are accepted as identifiers, which is what lets a macro be literally
named `union`. -/
def reservedWord (s : String) : Bool :=
  s == "_" || s == "abstract" || s == "as" || s == "async" || s == "await" ||
  s == "become" || s == "box" ||
  s == "break" || s == "const" || s == "continue" || s == "crate" ||
  s == "do" || s == "dyn" || s == "else" || s == "enum" || s == "extern" ||
  s == "false" ||
  s == "final" || s == "fn" || s == "for" || s == "if" || s == "impl" ||
  s == "in" || s == "let" || s == "loop" || s == "macro" || s == "match" ||
  s == "mod" || s == "move" || s == "mut" || s == "override" || s == "priv" ||
  s == "pub" || s == "ref" || s == "return" || s == "Self" || s == "self" ||
  s == "static" || s == "struct" || s == "super" || s == "trait" ||
  s == "true" || s == "try" || s == "type" || s == "typeof" || s == "unsafe" ||
  s == "unsized" || s == "use" || s == "virtual" || s == "where" ||
  s == "while" || s == "yield"

/-- Is the head token the given keyword? (`lookahead.peek(Token![kw])`). -/
def peekKw (s : String) : List Tok → Bool
  | .ident t :: _ => t == s
  | _ => false

/-- Is the head token the given punctuation? -/
def peekPunct (s : String) : List Tok → Bool
  | .punct t :: _ => t == s
  | _ => false

/-- `lookahead.peek(Ident)`: the head token is a word acceptable as a
plain (non-reserved) identifier. -/
def peekIdent : List Tok → Bool
  | .ident t :: _ => !reservedWord t
  | _ => false

/-- `ahead.peek2(Ident)`: the second token is acceptable as an identifier. -/
def peekSecondIdent : List Tok → Bool
  | _ :: .ident t :: _ => !reservedWord t
  | _ => false

/-- `ahead.peek2(Token![kw])`. -/
def peekSecondKw (s : String) : List Tok → Bool
  | _ :: .ident t :: _ => t == s
  | _ => false

/-- `ahead.peek2(Token![!])`. -/
def peekSecondBang : List Tok → Bool
  | _ :: .punct t :: _ => t == "!"
  | _ => false

/-- Parse a required keyword token (`input.parse::<Token![kw]>()`). -/
def parseKwTok (s : String) (toks : List Tok) : Except Err (List Tok) :=
  match toks with
  | .ident t :: rest => if t == s then .ok rest else .error ⟨[s!"`{s}`"], toks.length⟩
  | _ => .error ⟨[s!"`{s}`"], toks.length⟩

/-- Parse a required punctuation token. -/
def parsePunctTok (s : String) (toks : List Tok) : Except Err (List Tok) :=
  match toks with
  | .punct t :: rest => if t == s then .ok rest else .error ⟨[s!"`{s}`"], toks.length⟩
  | _ => .error ⟨[s!"`{s}`"], toks.length⟩

/-- Parse a plain identifier (`input.parse::<Ident>()`): any word that is
not reserved. -/
def parseIdentTok (toks : List Tok) : Except Err (String × List Tok) :=
  match toks with
  | .ident t :: rest =>
      if reservedWord t then .error ⟨["identifier"], toks.length⟩ else .ok (t, rest)
  | _ => .error ⟨["identifier"], toks.length⟩

/-- Parse any identifier word, keywords included (`Ident::parse_any`). -/
def parseIdentAny (toks : List Tok) : Except Err (String × List Tok) :=
  match toks with
  | .ident t :: rest => .ok (t, rest)
  | _ => .error ⟨["identifier"], toks.length⟩

/-! ### Attributes

Modelled from the spec (§3, §4.2): attributes are opaque annotated spans;
an outer annotation is written `#[...]` before the declaration, an inner
annotation `#![...]` inside its body.  The contents of the bracket group
are not interpreted. -/

inductive AttrStyle where
  | outer
  | inner
deriving DecidableEq, Repr

structure Attribute where
  style : AttrStyle
  tokens : List Tok

/-- Modelled from the spec: `Attribute::parse_outer` collects the maximal
run of leading `#[...]` annotations. -/
def parseOuterAttrs : List Tok → List Attribute × List Tok
  | .punct s :: .group d ts :: rest =>
      if s == "#" && d == Delim.bracket then
        let p := parseOuterAttrs rest
        (⟨.outer, ts⟩ :: p.1, p.2)
      else ([], .punct s :: .group d ts :: rest)
  | toks => ([], toks)

/-- Modelled from the spec: `Attribute::parse_inner` collects the maximal
run of leading `#![...]` annotations. -/
def parseInnerAttrs : List Tok → List Attribute × List Tok
  | .punct s :: .punct b :: .group d ts :: rest =>
      if s == "#" && b == "!" && d == Delim.bracket then
        let p := parseInnerAttrs rest
        (⟨.inner, ts⟩ :: p.1, p.2)
      else ([], .punct s :: .punct b :: .group d ts :: rest)
  | toks => ([], toks)

/-- Modelled from the spec (§4.2): `private::attrs` appends the inner
annotations after the merged outer list. -/
def privateAttrs (outer inner : List Attribute) : List Attribute :=
  outer ++ inner

/-- Print one attribute (`ToTokens for Attribute`, modelled from the
spec's round-trip contract). -/
def printAttr (a : Attribute) : List Tok :=
  match a.style with
  | .outer => [.punct "#", .group .bracket a.tokens]
  | .inner => [.punct "#", .punct "!", .group .bracket a.tokens]

/-- `attrs.outer()`: the outer annotations, printed (`FilterAttrs`). -/
def printAttrsOuter (attrs : List Attribute) : List Tok :=
  (attrs.filter (fun a => a.style == AttrStyle.outer)).flatMap printAttr

/-- `attrs.inner()`: the inner annotations, printed. -/
def printAttrsInner (attrs : List Attribute) : List Tok :=
  (attrs.filter (fun a => a.style == AttrStyle.inner)).flatMap printAttr

/-! ### Visibility

Modelled from the spec (§4.2): the dispatch speculatively parses a
visibility marker on a forked cursor.  `pub` may carry a parenthesized
restriction whose first token is `crate`, `self`, `super` or `in`. -/

inductive Visibility where
  | inherited
  | restricted (toks : List Tok)
  | public

/-- Does a parenthesized group after `pub` look like a visibility
restriction? -/
def restrictionLike : List Tok → Bool
  | .ident t :: _ => t == "crate" || t == "self" || t == "super" || t == "in"
  | _ => false

/-- Modelled from the spec: speculative visibility parse; it never fails
(absence of `pub` yields the inherited visibility). -/
def parseVisibility : List Tok → Visibility × List Tok
  | .ident "pub" :: .group .paren ts :: rest =>
      if restrictionLike ts then (.restricted ts, rest)
      else (.public, .group .paren ts :: rest)
  | .ident "pub" :: rest => (.public, rest)
  | toks => (.inherited, toks)

def Visibility.isInherited : Visibility → Bool
  | .inherited => true
  | _ => false

def printVisibility : Visibility → List Tok
  | .inherited => []
  | .restricted ts => [.ident "pub", .group .paren ts]
  | .public => [.ident "pub"]

/-! ### Partial borrows (src/partial_borrows.rs) -/

/-- `PartialBorrow`: an optional `mut` token and a field name
(src/partial_borrows.rs). -/
structure PartialBorrow where
  mutability : Option Unit
  ident : String
deriving DecidableEq, Repr

/-- `PartialBorrows`: the braced, comma-punctuated borrow list.  The
punctuated sequence keeps trailing-separator presence exactly (spec §3).
The brace token itself carries no data. -/
structure PartialBorrows where
  borrows : List PartialBorrow
  trailing : Bool
deriving DecidableEq, Repr

/-- `content.parse_terminated(PartialBorrow::parse)`: each entry is an
optional `mut` followed by an identifier (`Parse for PartialBorrow`),
entries separated by commas, optional trailing comma.  The element parse
is inlined into flat patterns to keep the recursion structural. -/
def parseBorrowList : List Tok → Except Err (List PartialBorrow × Bool)
  | [] => .ok ([], false)
  | [.ident s] =>
      if s == "mut" then .error ⟨["identifier"], 0⟩
      else if reservedWord s then .error ⟨["identifier"], 1⟩
      else .ok ([⟨none, s⟩], false)
  | [.ident s, .ident x] =>
      if s == "mut" then
        if reservedWord x then .error ⟨["identifier"], 1⟩
        else .ok ([⟨some (), x⟩], false)
      else if reservedWord s then .error ⟨["identifier"], 2⟩
      else .error ⟨["`,`"], 1⟩
  | .ident s :: .ident x :: .punct c :: rest =>
      if s == "mut" then
        if reservedWord x then .error ⟨["identifier"], rest.length + 2⟩
        else if c == "," then
          if rest.isEmpty then .ok ([⟨some (), x⟩], true)
          else
            match parseBorrowList rest with
            | .ok (bs, tr) => .ok (⟨some (), x⟩ :: bs, tr)
            | .error e => .error e
        else .error ⟨["`,`"], rest.length + 1⟩
      else if reservedWord s then .error ⟨["identifier"], rest.length + 3⟩
      else .error ⟨["`,`"], rest.length + 2⟩
  | .ident s :: .ident x :: other =>
      if s == "mut" then
        if reservedWord x then .error ⟨["identifier"], other.length + 1⟩
        else .error ⟨["`,`"], other.length⟩
      else if reservedWord s then .error ⟨["identifier"], other.length + 2⟩
      else .error ⟨["`,`"], other.length + 1⟩
  | .ident s :: .punct c :: rest =>
      if s == "mut" then .error ⟨["identifier"], rest.length + 1⟩
      else if reservedWord s then .error ⟨["identifier"], rest.length + 2⟩
      else if c == "," then
        if rest.isEmpty then .ok ([⟨none, s⟩], true)
        else
          match parseBorrowList rest with
          | .ok (bs, tr) => .ok (⟨none, s⟩ :: bs, tr)
          | .error e => .error e
      else .error ⟨["`,`"], rest.length + 1⟩
  | .ident s :: other =>
      if s == "mut" then .error ⟨["identifier"], other.length⟩
      else if reservedWord s then .error ⟨["identifier"], other.length + 1⟩
      else .error ⟨["`,`"], other.length⟩
  | other => .error ⟨["identifier"], other.length⟩

/-- `Parse for PartialBorrows`: a brace group whose content is parsed as
a terminated borrow list. -/
def parsePartialBorrows (toks : List Tok) : Except Err (PartialBorrows × List Tok) :=
  match toks with
  | .group .brace ts :: rest =>
      match parseBorrowList ts with
      | .ok (bs, tr) => .ok (⟨bs, tr⟩, rest)
      | .error e => .error e
  | _ => .error ⟨["curly braces"], toks.length⟩

/-- `ToTokens for PartialBorrow`: optional `mut` before the name. -/
def printPartialBorrow (b : PartialBorrow) : List Tok :=
  (match b.mutability with
   | some _ => [Tok.ident "mut"]
   | none => []) ++ [Tok.ident b.ident]

/-- Print a comma-punctuated list, preserving trailing-separator
presence (spec §3). -/
def printPunctuatedBorrows : List PartialBorrow → Bool → List Tok
  | [], _ => []
  | [b], trailing => printPartialBorrow b ++ (if trailing then [Tok.punct ","] else [])
  | b :: bs, trailing => printPartialBorrow b ++ [Tok.punct ","] ++ printPunctuatedBorrows bs trailing

/-- `ToTokens for PartialBorrows`: brace-surrounded entry list. -/
def printPartialBorrows (p : PartialBorrows) : List Tok :=
  [.group .brace (printPunctuatedBorrows p.borrows p.trailing)]

/-! ### Receiver and function arguments (src/item.rs) -/

/-- `Reference` (src/item.rs line 1104): `noneRef` is the source's
`Reference::None`, `partialRef` is `Reference::Partial` (the dot token
carries no data), `fullRef` is `Reference::Full`. -/
inductive Reference where
  | noneRef (mutability : Option Unit)
  | partialRef (borrows : PartialBorrows)
  | fullRef (lifetime : Option String) (mutability : Option Unit)
deriving DecidableEq, Repr

/-- `Receiver` (src/item.rs line 1119).  The `self` token carries no
data. -/
structure Receiver where
  attrs : List Attribute
  reference : Reference

/-- The tail of the by-reference receiver after `&[lifetime]`: an
optional `mut` and the required `self` token (src/item.rs lines
1558-1564). -/
def parseAmpTail (lt : Option String) (toks : List Tok) : Except Err (Receiver × List Tok) :=
  let mr :=
    match toks with
    | .ident m :: r =>
        if m == "mut" then ((some () : Option Unit), r) else (none, .ident m :: r)
    | _ => ((none : Option Unit), toks)
  match parseKwTok "self" mr.2 with
  | .ok rest4 => .ok (⟨[], .fullRef lt mr.1⟩, rest4)
  | .error e => .error e

/-- `Parse for Receiver` (src/item.rs lines 1550-1580): lookahead on
`mut` / `&` / `self` in that order; after a bare `self`, a dot selects
the partial borrow form.  The keyword peeks are written as string tests
on the head token, exactly what the source's `peek(Token![...])` does. -/
def parseReceiver (toks : List Tok) : Except Err (Receiver × List Tok) :=
  match toks with
  | .ident s :: rest =>
      if s == "mut" then
        match parseKwTok "self" rest with
        | .ok rest2 => .ok (⟨[], .noneRef (some ())⟩, rest2)
        | .error e => .error e
      else if s == "self" then
        match rest with
        | .punct c :: rest2 =>
            if c == "." then
              match parsePartialBorrows rest2 with
              | .ok (pb, rest3) => .ok (⟨[], .partialRef pb⟩, rest3)
              | .error e => .error e
            else .ok (⟨[], .noneRef none⟩, .punct c :: rest2)
        | _ => .ok (⟨[], .noneRef none⟩, rest)
      else .error ⟨["`mut`", "`&`", "`self`"], rest.length + 1⟩
  | .punct p :: rest =>
      if p == "&" then
        match rest with
        | .lifetime l :: r => parseAmpTail (some l) r
        | _ => parseAmpTail none rest
      else .error ⟨["`mut`", "`&`", "`self`"], rest.length + 1⟩
  | toks => .error ⟨["`mut`", "`&`", "`self`"], toks.length⟩

/-- A binding pattern.  Modelled from the spec: the pattern sub-grammar
is an external collaborator; only simple `[mut] name` bindings occur in
the claims (`self`, plain parameter names). -/
structure PatIdent where
  mutability : Option Unit
  ident : String
deriving DecidableEq, Repr

inductive Pat where
  | identPat (p : PatIdent)
  | wild
deriving DecidableEq, Repr

/-- Is a word usable as a binding-pattern name?  Modelled from the spec:
`self` and `_` bind in patterns although they are reserved as plain
identifiers. -/
def patWordOk (s : String) : Bool :=
  !reservedWord s || s == "self" || s == "_"

/-- Modelled from the spec: minimal pattern parse for parameter
positions. -/
def parsePat (toks : List Tok) : Except Err (Pat × List Tok) :=
  match toks with
  | .ident "mut" :: .ident x :: rest =>
      if patWordOk x then .ok (.identPat ⟨some (), x⟩, rest)
      else .error ⟨["identifier"], rest.length + 1⟩
  | .ident x :: rest =>
      if patWordOk x then .ok (.identPat ⟨none, x⟩, rest)
      else .error ⟨["identifier"], rest.length + 1⟩
  | _ => .error ⟨["pattern"], toks.length⟩

/-- A type: either the verbatim three-dot capture produced by
`fn_arg_typed` for a variadic tail, or an opaque token run.  Modelled
from the spec: the type sub-grammar is an external collaborator. -/
inductive Ty where
  | verbatim (ts : List Tok)
  | opaqueTy (ts : List Tok)

/-- Modelled from the spec: an opaque type token run ends before a
top-level `,`, `=` or `;`. -/
def typeStop (t : Tok) : Bool :=
  match t with
  | .punct s => s == "," || s == "=" || s == ";"
  | _ => false

def takeTypeToks : List Tok → List Tok × List Tok
  | [] => ([], [])
  | t :: rest =>
      if typeStop t then ([], t :: rest)
      else
        let p := takeTypeToks rest
        (t :: p.1, p.2)

/-- Modelled from the spec: opaque type parse; an empty run is an
error. -/
def parseType (toks : List Tok) : Except Err (Ty × List Tok) :=
  match takeTypeToks toks with
  | ([], _) => .error ⟨["type"], toks.length⟩
  | (ts, rest) => .ok (.opaqueTy ts, rest)

/-- `PatType`: a pattern, colon, and type. -/
structure PatType where
  attrs : List Attribute
  pat : Pat
  ty : Ty

/-- `FnArg` (src/item.rs line 1090). -/
inductive FnArg where
  | receiver (r : Receiver)
  | typed (t : PatType)

/-- `fn_arg_typed` (src/item.rs lines 1582-1621): the pre-2018 hack
produces a wildcard pattern when an identifier is directly followed by
`<`; otherwise pattern, colon, then either the `...` verbatim capture or
a type. -/
def fnArgTyped (toks : List Tok) : Except Err (PatType × List Tok) :=
  if peekIdent toks && peekSecondPunctLt toks then
    match takeTypeToks toks with
    | ([], _) => .error ⟨["type"], toks.length⟩
    | (ts, rest) => .ok (⟨[], .wild, .opaqueTy ts⟩, rest)
  else
    match parsePat toks with
    | .error e => .error e
    | .ok (pat, rest) =>
        match parsePunctTok ":" rest with
        | .error e => .error e
        | .ok rest2 =>
            match rest2 with
            | .punct "..." :: rest3 => .ok (⟨[], pat, .verbatim [.punct "..."]⟩, rest3)
            | _ =>
                match parseType rest2 with
                | .error e => .error e
                | .ok (ty, rest3) => .ok (⟨[], pat, ty⟩, rest3)
where
  peekSecondPunctLt (toks : List Tok) : Bool :=
    match toks with
    | _ :: .punct s :: _ => s == "<"
    | _ => false

/-- `Parse for FnArg` (src/item.rs lines 1531-1548): outer attributes,
then a speculative `Receiver` parse on a fork; committed only when it
succeeds and is not followed by a colon, otherwise the typed form is
parsed from the original position. -/
def parseFnArg (toks : List Tok) : Except Err (FnArg × List Tok) :=
  let (attrs, input) := parseOuterAttrs toks
  match parseReceiver input with
  | .ok (r, rest) =>
      if peekPunct ":" rest then
        match fnArgTyped input with
        | .ok (t, rest2) => .ok (.typed { t with attrs := attrs }, rest2)
        | .error e => .error e
      else .ok (.receiver { r with attrs := attrs }, rest)
  | .error _ =>
      match fnArgTyped input with
      | .ok (t, rest2) => .ok (.typed { t with attrs := attrs }, rest2)
      | .error e => .error e

/-- `ToTokens for Receiver` (src/item.rs lines 3054-3075). -/
def printReceiver (r : Receiver) : List Tok :=
  printAttrsOuter r.attrs ++
  match r.reference with
  | .noneRef mt =>
      (match mt with
       | some _ => [Tok.ident "mut"]
       | none => []) ++ [Tok.ident "self"]
  | .partialRef pb => [Tok.ident "self", Tok.punct "."] ++ printPartialBorrows pb
  | .fullRef lt mt =>
      [Tok.punct "&"] ++
      (match lt with
       | some l => [Tok.lifetime l]
       | none => []) ++
      (match mt with
       | some _ => [Tok.ident "mut"]
       | none => []) ++ [Tok.ident "self"]

/-! ### Generics, where clauses, return types, expressions

Modelled from the spec (§1, §4): the type-level and expression-level
sub-grammars are external collaborators; they are captured as opaque,
delimiter-balanced token runs. -/

/-- Consume the raw tokens of a generic parameter list up to the matching
closing angle bracket; `depth` counts nested openers. -/
def takeAngles (depth : Nat) : List Tok → Except Err (List Tok × List Tok)
  | [] => .error ⟨["`>`"], 0⟩
  | .punct ">" :: rest =>
      if depth = 0 then .ok ([], rest)
      else
        match takeAngles (depth - 1) rest with
        | .ok (ts, r) => .ok (.punct ">" :: ts, r)
        | .error e => .error e
  | .punct "<" :: rest =>
      match takeAngles (depth + 1) rest with
      | .ok (ts, r) => .ok (.punct "<" :: ts, r)
      | .error e => .error e
  | t :: rest =>
      match takeAngles depth rest with
      | .ok (ts, r) => .ok (t :: ts, r)
      | .error e => .error e

/-- Generic parameters and the optional where clause, carried as raw
token runs (modelled from the spec). -/
structure Generics where
  params : Option (List Tok)
  whereClause : Option (List Tok)

/-- Modelled from the spec: `Generics::parse` consumes `<...>` when
present, nothing otherwise. -/
def parseGenerics (toks : List Tok) : Except Err (Generics × List Tok) :=
  match toks with
  | .punct "<" :: rest =>
      match takeAngles 0 rest with
      | .ok (ts, r) => .ok (⟨some ts, none⟩, r)
      | .error e => .error e
  | _ => .ok (⟨none, none⟩, toks)

/-- A where clause's raw tokens stop before a brace group or a
semicolon. -/
def takeWhereToks : List Tok → List Tok × List Tok
  | [] => ([], [])
  | .group .brace ts :: rest => ([], .group .brace ts :: rest)
  | .punct ";" :: rest => ([], .punct ";" :: rest)
  | t :: rest =>
      let p := takeWhereToks rest
      (t :: p.1, p.2)

/-- Modelled from the spec: optional where-clause parse. -/
def parseWhereOpt (toks : List Tok) : Option (List Tok) × List Tok :=
  match toks with
  | .ident "where" :: rest =>
      let p := takeWhereToks rest
      (some p.1, p.2)
  | _ => (none, toks)

def printGenerics (g : Generics) : List Tok :=
  match g.params with
  | some ts => [.punct "<"] ++ ts ++ [.punct ">"]
  | none => []

def printWhereOpt : Option (List Tok) → List Tok
  | some ts => .ident "where" :: ts
  | none => []

/-- A return type's raw tokens stop before a brace group, a `where`
keyword or a semicolon. -/
def takeRetToks : List Tok → List Tok × List Tok
  | [] => ([], [])
  | .group .brace ts :: rest => ([], .group .brace ts :: rest)
  | .punct ";" :: rest => ([], .punct ";" :: rest)
  | .ident "where" :: rest => ([], .ident "where" :: rest)
  | t :: rest =>
      let p := takeRetToks rest
      (t :: p.1, p.2)

/-- Modelled from the spec: `ReturnType::parse` takes `->` followed by an
opaque type run, or nothing. -/
def parseReturnType (toks : List Tok) : Except Err (Option (List Tok) × List Tok) :=
  match toks with
  | .punct "->" :: rest =>
      let p := takeRetToks rest
      if p.1.isEmpty then .error ⟨["type"], rest.length⟩ else .ok (some p.1, p.2)
  | _ => .ok (none, toks)

/-- An expression's raw tokens stop before a top-level semicolon
(modelled from the spec: the expression grammar is external). -/
def takeExprToks : List Tok → List Tok × List Tok
  | [] => ([], [])
  | .punct ";" :: rest => ([], .punct ";" :: rest)
  | t :: rest =>
      let p := takeExprToks rest
      (t :: p.1, p.2)

/-- Optional keyword consumption (`input.parse::<Option<Token![kw]>>()`). -/
def optKw (s : String) (toks : List Tok) : Option Unit × List Tok :=
  match toks with
  | .ident t :: rest => if t == s then (some (), rest) else (none, toks)
  | _ => (none, toks)

/-- `Abi`: the `extern` keyword with an optional name literal. -/
structure Abi where
  name : Option String
deriving DecidableEq, Repr

/-- `input.parse::<Option<Abi>>()`. -/
def parseAbiOpt (toks : List Tok) : Option Abi × List Tok :=
  match toks with
  | .ident "extern" :: .lit s :: rest => (some ⟨some s⟩, rest)
  | .ident "extern" :: rest => (some ⟨none⟩, rest)
  | _ => (none, toks)

/-! ### Function items (src/item.rs) -/

/-- `Signature` (src/item.rs line 1053).  The parenthesized input list
keeps its trailing-separator flag (spec §3); the statement block and
return type are opaque token runs. -/
structure Signature where
  constness : Option Unit
  asyncness : Option Unit
  unsafety : Option Unit
  abi : Option Abi
  ident : String
  generics : Generics
  inputs : List FnArg
  inputsTrailing : Bool
  variadic : Option Unit
  output : Option (List Tok)

/-- `ItemFn` (src/item.rs line 162 region): attributes, visibility,
signature and the brace-delimited body, whose statements are kept as an
opaque token run (the statement grammar is external per the spec). -/
structure ItemFn where
  attrs : List Attribute
  vis : Visibility
  sig : Signature
  stmts : List Tok

/-- `content.parse_terminated(FnArg::parse)` (src/item.rs line 1482),
with fuel bounded by the content length. -/
def parseFnArgList : Nat → List Tok → Except Err (List FnArg × Bool)
  | _, [] => .ok ([], false)
  | 0, toks => .error ⟨["function argument"], toks.length⟩
  | fuel + 1, toks =>
      match parseFnArg toks with
      | .error e => .error e
      | .ok (a, rest) =>
          match rest with
          | [] => .ok ([a], false)
          | .punct "," :: rest2 =>
              if rest2.isEmpty then .ok ([a], true)
              else
                match parseFnArgList fuel rest2 with
                | .ok (as, tr) => .ok (a :: as, tr)
                | .error e => .error e
          | other => .error ⟨["`,`"], other.length⟩

/-- `get_variadic` (src/item.rs lines 1485-1497): the last parameter is a
variadic marker when it is a typed argument whose type is the verbatim
three-dot run. -/
def getVariadic : Option FnArg → Option Unit
  | some (.typed pt) =>
      match pt.ty with
      | .verbatim [.punct "..."] => some ()
      | _ => none
  | _ => none

/-- `Parse for ItemFn` (src/item.rs lines 1468-1528). -/
def parseItemFn (toks : List Tok) : Except Err (ItemFn × List Tok) :=
  let (outerA, t1) := parseOuterAttrs toks
  let (vis, t2) := parseVisibility t1
  let (constness, t3) := optKw "const" t2
  let (asyncness, t4) := optKw "async" t3
  let (unsafety, t5) := optKw "unsafe" t4
  let (abi, t6) := parseAbiOpt t5
  match parseKwTok "fn" t6 with
  | .error e => .error e
  | .ok t7 =>
  match parseIdentTok t7 with
  | .error e => .error e
  | .ok (name, t8) =>
  match parseGenerics t8 with
  | .error e => .error e
  | .ok (gen, t9) =>
  match t9 with
  | .group .paren content :: t10 =>
      match parseFnArgList (content.length + 1) content with
      | .error e => .error e
      | .ok (args, trailing) =>
      let variadic := getVariadic args.getLast?
      match parseReturnType t10 with
      | .error e => .error e
      | .ok (output, t11) =>
      let (wc, t12) := parseWhereOpt t11
      match t12 with
      | .group .brace body :: t13 =>
          let (innerA, stmts) := parseInnerAttrs body
          .ok (⟨privateAttrs outerA innerA, vis,
                ⟨constness, asyncness, unsafety, abi, name,
                 { gen with whereClause := wc }, args, trailing, variadic, output⟩,
                stmts⟩, t13)
      | other => .error ⟨["curly braces"], other.length⟩
  | other => .error ⟨["parentheses"], other.length⟩

/-! ### Constants, macros, modules (src/item.rs) -/

/-- `ItemConst` (src/item.rs line 88): the value expression is an opaque
token run. -/
structure ItemConst where
  attrs : List Attribute
  vis : Visibility
  ident : String
  ty : Ty
  expr : List Tok

/-- `Parse for ItemConst` (src/item.rs lines 1445-1466): the name is
parsed with `Ident::parse_any` after a lookahead admitting an identifier
or an underscore. -/
def parseItemConst (toks : List Tok) : Except Err (ItemConst × List Tok) :=
  let (attrs, t1) := parseOuterAttrs toks
  let (vis, t2) := parseVisibility t1
  match parseKwTok "const" t2 with
  | .error e => .error e
  | .ok t3 =>
  if peekIdent t3 || peekKw "_" t3 then
    match parseIdentAny t3 with
    | .error e => .error e
    | .ok (name, t4) =>
    match parsePunctTok ":" t4 with
    | .error e => .error e
    | .ok t5 =>
    match parseType t5 with
    | .error e => .error e
    | .ok (ty, t6) =>
    match parsePunctTok "=" t6 with
    | .error e => .error e
    | .ok t7 =>
    let (expr, t8) := takeExprToks t7
    if expr.isEmpty then .error ⟨["expression"], t7.length⟩
    else
      match parsePunctTok ";" t8 with
      | .error e => .error e
      | .ok t9 => .ok (⟨attrs, vis, name, ty, expr⟩, t9)
  else .error ⟨["identifier", "`_`"], t3.length⟩

/-- Is a word a `Path::parse_mod_style` segment?  Modelled from the spec:
path segments are identifiers or the path keywords. -/
def pathSegOk (s : String) : Bool :=
  !reservedWord s || s == "self" || s == "super" || s == "crate" || s == "Self"

/-- Modelled from the spec: the tail of a mod-style path, `::`-separated
segments. -/
def parseModPathTail : List Tok → Except Err (List String × List Tok)
  | .punct "::" :: toks2 =>
      match toks2 with
      | .ident s :: rest =>
          if pathSegOk s then
            match parseModPathTail rest with
            | .ok (ss, r) => .ok (s :: ss, r)
            | .error e => .error e
          else .error ⟨["identifier"], rest.length + 1⟩
      | other => .error ⟨["identifier"], other.length⟩
  | toks => .ok ([], toks)

/-- Modelled from the spec: `Path::parse_mod_style`. -/
def parsePathModStyle (toks : List Tok) : Except Err (List String × List Tok) :=
  match toks with
  | .ident s :: rest =>
      if pathSegOk s then
        match parseModPathTail rest with
        | .ok (ss, r) => .ok (s :: ss, r)
        | .error e => .error e
      else .error ⟨["identifier"], rest.length + 1⟩
  | other => .error ⟨["identifier"], other.length⟩

/-- `ItemMacro` (src/item.rs line 300 region): an invocation
`path ! [ident] (tokens)`, with a required trailing semicolon when the
delimiter is not a brace. -/
structure ItemMacro where
  attrs : List Attribute
  ident : Option String
  path : List String
  delim : Delim
  tokens : List Tok
  semi : Bool

/-- `Parse for ItemMacro` (src/item.rs lines 1268-1292). -/
def parseItemMacro (toks : List Tok) : Except Err (ItemMacro × List Tok) :=
  let (attrs, t1) := parseOuterAttrs toks
  match parsePathModStyle t1 with
  | .error e => .error e
  | .ok (path, t2) =>
  match parsePunctTok "!" t2 with
  | .error e => .error e
  | .ok t3 =>
  let (mident, t4) :=
    match t3 with
    | .ident s :: rest => if reservedWord s then (none, t3) else (some s, rest)
    | _ => ((none : Option String), t3)
  match t4 with
  | .group d ts :: t5 =>
      if d = Delim.brace then .ok (⟨attrs, mident, path, d, ts, false⟩, t5)
      else
        match parsePunctTok ";" t5 with
        | .error e => .error e
        | .ok t6 => .ok (⟨attrs, mident, path, d, ts, true⟩, t6)
  | other => .error ⟨["delimiter"], other.length⟩

/-- `ItemMod` (src/item.rs line 330 region): the module items are kept as
an opaque token run (their recursive structure is outside the claims). -/
structure ItemMod where
  attrs : List Attribute
  vis : Visibility
  ident : String
  content : Option (List Tok)
  semi : Bool

/-- `Parse for ItemMod` (src/item.rs lines 1623-1662): a semicolon form
without a body, or a braced body whose inner attributes are appended to
the outer ones. -/
def parseItemMod (toks : List Tok) : Except Err (ItemMod × List Tok) :=
  let (outerA, t1) := parseOuterAttrs toks
  let (vis, t2) := parseVisibility t1
  match parseKwTok "mod" t2 with
  | .error e => .error e
  | .ok t3 =>
  match parseIdentTok t3 with
  | .error e => .error e
  | .ok (name, t4) =>
  match t4 with
  | .punct ";" :: t5 => .ok (⟨outerA, vis, name, none, true⟩, t5)
  | .group .brace body :: t5 =>
      let (innerA, items) := parseInnerAttrs body
      .ok (⟨privateAttrs outerA innerA, vis, name, some items, false⟩, t5)
  | other => .error ⟨["`;`", "curly braces"], other.length⟩

/-! ### Structs, enums, unions (src/item.rs; body parsers modelled)

The body parsers `derive::parsing::data_struct` / `data_enum` /
`data_union` live in a source file outside this snapshot; they are
modelled from the spec (§3): a struct body is named, tuple or unit —
tuple and unit forms require a trailing terminator, the named form
forbids one; a union body permits only named fields.  Field internals
are opaque token runs. -/

inductive Fields where
  | named (ts : List Tok)
  | unnamed (ts : List Tok)
  | unit

/-- `ItemStruct` (src/item.rs line 2702 region witnesses its fields). -/
structure ItemStruct where
  attrs : List Attribute
  vis : Visibility
  ident : String
  generics : Generics
  fields : Fields
  semi : Option Unit

/-- Modelled from the spec: `derive::parsing::data_struct`. -/
def parseDataStruct (toks : List Tok) :
    Except Err ((Option (List Tok)) × Fields × Option Unit × List Tok) :=
  let (wc, t1) := parseWhereOpt toks
  match t1 with
  | .group .brace ts :: rest => .ok (wc, .named ts, none, rest)
  | .group .paren ts :: rest =>
      let (wc2, t2) := parseWhereOpt rest
      match parsePunctTok ";" t2 with
      | .error e => .error e
      | .ok t3 => .ok (wc.orElse (fun _ => wc2), .unnamed ts, some (), t3)
  | .punct ";" :: rest => .ok (wc, .unit, some (), rest)
  | other => .error ⟨["`where`", "parentheses", "curly braces", "`;`"], other.length⟩

/-- `Parse for ItemStruct` (src/item.rs lines 1896-1917). -/
def parseItemStruct (toks : List Tok) : Except Err (ItemStruct × List Tok) :=
  let (attrs, t1) := parseOuterAttrs toks
  let (vis, t2) := parseVisibility t1
  match parseKwTok "struct" t2 with
  | .error e => .error e
  | .ok t3 =>
  match parseIdentTok t3 with
  | .error e => .error e
  | .ok (name, t4) =>
  match parseGenerics t4 with
  | .error e => .error e
  | .ok (gen, t5) =>
  match parseDataStruct t5 with
  | .error e => .error e
  | .ok (wc, fields, semi, t6) =>
      .ok (⟨attrs, vis, name, { gen with whereClause := wc }, fields, semi⟩, t6)

/-- `ItemEnum` (src/item.rs line 105): variants kept as the raw brace
content. -/
structure ItemEnum where
  attrs : List Attribute
  vis : Visibility
  ident : String
  generics : Generics
  variants : List Tok

/-- `Parse for ItemEnum` (src/item.rs lines 1919-1940), with the body
parser modelled from the spec. -/
def parseItemEnum (toks : List Tok) : Except Err (ItemEnum × List Tok) :=
  let (attrs, t1) := parseOuterAttrs toks
  let (vis, t2) := parseVisibility t1
  match parseKwTok "enum" t2 with
  | .error e => .error e
  | .ok t3 =>
  match parseIdentTok t3 with
  | .error e => .error e
  | .ok (name, t4) =>
  match parseGenerics t4 with
  | .error e => .error e
  | .ok (gen, t5) =>
  let (wc, t6) := parseWhereOpt t5
  match t6 with
  | .group .brace ts :: rest =>
      .ok (⟨attrs, vis, name, { gen with whereClause := wc }, ts⟩, rest)
  | other => .error ⟨["curly braces"], other.length⟩

/-- `ItemUnion` (src/item.rs line 237 region): the body permits only
named fields (spec §3), kept as the raw brace content. -/
structure ItemUnion where
  attrs : List Attribute
  vis : Visibility
  ident : String
  generics : Generics
  fields : List Tok

/-- `Parse for ItemUnion` (src/item.rs lines 1942-1962), with the body
parser modelled from the spec. -/
def parseItemUnion (toks : List Tok) : Except Err (ItemUnion × List Tok) :=
  let (attrs, t1) := parseOuterAttrs toks
  let (vis, t2) := parseVisibility t1
  match parseKwTok "union" t2 with
  | .error e => .error e
  | .ok t3 =>
  match parseIdentTok t3 with
  | .error e => .error e
  | .ok (name, t4) =>
  match parseGenerics t4 with
  | .error e => .error e
  | .ok (gen, t5) =>
  let (wc, t6) := parseWhereOpt t5
  match t6 with
  | .group .brace ts :: rest =>
      .ok (⟨attrs, vis, name, { gen with whereClause := wc }, ts⟩, rest)
  | other => .error ⟨["curly braces"], other.length⟩

/-! ### Foreign blocks and impl blocks (src/item.rs)

Both forms have an inner-attribute slot merged via `private::attrs`, so
their attribute plumbing is embedded faithfully; their member items use
the recursive item sub-grammars and are kept as raw token runs. -/

/-- `ItemForeignMod` (src/item.rs line 147 region): an ABI followed by a
brace-delimited block whose foreign items are kept as a raw token run. -/
structure ItemForeignMod where
  attrs : List Attribute
  abi : Abi
  items : List Tok

/-- `Parse for ItemForeignMod` (src/item.rs lines 1664-1684): outer
attributes, a required ABI, then the braced block's inner attributes
followed by its items; the attribute list is `private::attrs(outer,
inner)`. -/
def parseItemForeignMod (toks : List Tok) : Except Err (ItemForeignMod × List Tok) :=
  let (outerA, t1) := parseOuterAttrs toks
  match t1 with
  | .ident "extern" :: .lit s :: t2 =>
      match t2 with
      | .group .brace body :: t3 =>
          let (innerA, items) := parseInnerAttrs body
          .ok (⟨privateAttrs outerA innerA, ⟨some s⟩, items⟩, t3)
      | other => .error ⟨["curly braces"], other.length⟩
  | .ident "extern" :: t2 =>
      match t2 with
      | .group .brace body :: t3 =>
          let (innerA, items) := parseInnerAttrs body
          .ok (⟨privateAttrs outerA innerA, ⟨none⟩, items⟩, t3)
      | other => .error ⟨["curly braces"], other.length⟩
  | other => .error ⟨["`extern`"], other.length⟩

/-- Everything up to (not including) a top-level brace group: the impl
header's generics, optional trait path and self type, which use the
external type and path grammars and are kept raw (modelled from the
spec). -/
def takeUntilBrace : List Tok → List Tok × List Tok
  | [] => ([], [])
  | .group .brace ts :: rest => ([], .group .brace ts :: rest)
  | t :: rest =>
      let p := takeUntilBrace rest
      (t :: p.1, p.2)

/-- `ItemImpl` (src/item.rs line 186 region): the header (generics,
optional negative-trait path with `for`, self type, where clause) is an
opaque token run; the impl items are kept raw. -/
structure ItemImpl where
  attrs : List Attribute
  defaultness : Option Unit
  unsafety : Option Unit
  header : List Tok
  items : List Tok

/-- `Parse for ItemImpl` (src/item.rs lines 2312-2371): outer
attributes, optional `default` and `unsafe`, the `impl` keyword, the
header up to the brace, then the block's inner attributes followed by
its items; the attribute list is `private::attrs(outer, inner)`. -/
def parseItemImpl (toks : List Tok) : Except Err (ItemImpl × List Tok) :=
  let (outerA, t1) := parseOuterAttrs toks
  let (defaultness, t2) := optKw "default" t1
  let (unsafety, t3) := optKw "unsafe" t2
  match parseKwTok "impl" t3 with
  | .error e => .error e
  | .ok t4 =>
  let (header, t5) := takeUntilBrace t4
  match t5 with
  | .group .brace body :: t6 =>
      let (innerA, items) := parseInnerAttrs body
      .ok (⟨privateAttrs outerA innerA, defaultness, unsafety, header, items⟩, t6)
  | other => .error ⟨["curly braces"], other.length⟩

/-! ### Remaining item forms, captured coarsely

The use / static / extern-crate / trait / trait-alias / type-alias /
macro-2.0 declaration forms are dispatched on faithfully, but none of
the claims inspects their internals (none of them has an
inner-attribute slot); their bodies are captured as raw token runs up
to the end of the declaration (a top-level semicolon or trailing brace
group). -/

structure RawItem where
  attrs : List Attribute
  vis : Visibility
  body : List Tok

/-- Consume one declaration's worth of tokens: everything up to and
including a top-level semicolon or brace group. -/
def consumeTail : List Tok → List Tok × List Tok
  | [] => ([], [])
  | .punct ";" :: rest => ([.punct ";"], rest)
  | .group .brace ts :: rest => ([.group .brace ts], rest)
  | t :: rest =>
      let p := consumeTail rest
      (t :: p.1, p.2)

def parseRawItem (toks : List Tok) : Except Err (RawItem × List Tok) :=
  let (attrs, t1) := parseOuterAttrs toks
  let (vis, t2) := parseVisibility t1
  let (body, rest) := consumeTail t2
  .ok (⟨attrs, vis, body⟩, rest)

/-! ### The existential-type verbatim capture (src/item.rs) -/

/-- Is a token usable as a type parameter bound?  Modelled from the
spec: bounds are external type-grammar material; a single path identifier
or lifetime stands for one bound. -/
def boundTok : Tok → Bool
  | .ident s => !reservedWord s
  | .lifetime _ => true
  | _ => false

/-- The bound list of `item_existential` after its first element
(src/item.rs lines 1870-1876): while the next token is not `;`, a `+`
separator is required before every further bound. -/
def parseBoundsAfter : List Tok → Except Err (List Tok × List Tok)
  | .punct ";" :: rest => .ok ([], .punct ";" :: rest)
  | .punct "+" :: toks2 =>
      match toks2 with
      | t :: rest =>
          if boundTok t then
            match parseBoundsAfter rest with
            | .ok (bs, r) => .ok (t :: bs, r)
            | .error e => .error e
          else .error ⟨["type parameter bound"], rest.length + 1⟩
      | [] => .error ⟨["type parameter bound"], 0⟩
  | other => .error ⟨["`+`"], other.length⟩

/-- The full bound list: empty when `;` follows immediately. -/
def parseBoundsStart : List Tok → Except Err (List Tok × List Tok)
  | .punct ";" :: rest => .ok ([], .punct ";" :: rest)
  | t :: rest =>
      if boundTok t then
        match parseBoundsAfter rest with
        | .ok (bs, r) => .ok (t :: bs, r)
        | .error e => .error e
      else .error ⟨["type parameter bound"], rest.length + 1⟩
  | [] => .error ⟨["type parameter bound"], 0⟩

/-- Print a `+`-punctuated bound list. -/
def printBoundsPlus : List Tok → List Tok
  | [] => []
  | [b] => [b]
  | b :: bs => b :: .punct "+" :: printBoundsPlus bs

/-- `item_existential` (src/item.rs lines 1854-1894, the printing-feature
variant): parses the full existential type declaration and immediately
re-serializes it as a verbatim token run.  The colon is re-emitted only
when the bound list is non-empty. -/
def itemExistential (input : List Tok) : Except Err (List Tok × List Tok) :=
  let (attrs, t1) := parseOuterAttrs input
  let (vis, t2) := parseVisibility t1
  match parseKwTok "existential" t2 with
  | .error e => .error e
  | .ok t3 =>
  match parseKwTok "type" t3 with
  | .error e => .error e
  | .ok t4 =>
  match parseIdentTok t4 with
  | .error e => .error e
  | .ok (name, t5) =>
  match parseGenerics t5 with
  | .error e => .error e
  | .ok (gen, t6) =>
  let (wc, t7) := parseWhereOpt t6
  match parsePunctTok ":" t7 with
  | .error e => .error e
  | .ok t8 =>
  match parseBoundsStart t8 with
  | .error e => .error e
  | .ok (bounds, t9) =>
  match parsePunctTok ";" t9 with
  | .error e => .error e
  | .ok t10 =>
      let out :=
        printAttrsOuter attrs ++ printVisibility vis ++
        [Tok.ident "existential", Tok.ident "type", Tok.ident name] ++
        printGenerics gen ++ printWhereOpt wc ++
        (if bounds.isEmpty then [] else Tok.punct ":" :: printBoundsPlus bounds) ++
        [Tok.punct ";"]
      .ok (out, t10)

/-! ### The Item sum and the top-level dispatch (src/item.rs) -/

/-- `Item` (src/item.rs lines 25-81).  Constructor naming: `macroItem` is
the source's `Macro`, `macro2Item` is `Macro2`, `typeAliasItem` is
`Type`, `nonexhaustive` is the `__Nonexhaustive` sentinel (never produced
by the parser). -/
inductive Item where
  | constItem (c : ItemConst)
  | enumItem (e : ItemEnum)
  | externCrateItem (r : RawItem)
  | fnItem (f : ItemFn)
  | foreignModItem (f : ItemForeignMod)
  | implBlock (i : ItemImpl)
  | macroItem (m : ItemMacro)
  | macro2Item (r : RawItem)
  | modItem (m : ItemMod)
  | staticItem (r : RawItem)
  | structItem (s : ItemStruct)
  | traitDef (r : RawItem)
  | traitAliasItem (r : RawItem)
  | typeAliasItem (r : RawItem)
  | unionItem (u : ItemUnion)
  | useItem (r : RawItem)
  | verbatim (ts : List Tok)
  | nonexhaustive

/-- `parse_trait_or_trait_alias` (src/item.rs lines 1964-1990): after
the shared prefix, a brace, colon or `where` selects a trait definition,
`=` a trait alias; the bodies are captured coarsely. -/
def parseTraitOrAlias (toks : List Tok) : Except Err (Item × List Tok) :=
  let (attrs, t1) := parseOuterAttrs toks
  let (vis, t2) := parseVisibility t1
  match parseKwTok "trait" t2 with
  | .error e => .error e
  | .ok t3 =>
  match parseIdentTok t3 with
  | .error e => .error e
  | .ok (_, t4) =>
  match parseGenerics t4 with
  | .error e => .error e
  | .ok (_, t5) =>
  match t5 with
  | .group .brace ts :: rest => .ok (.traitDef ⟨attrs, vis, [.group .brace ts]⟩, rest)
  | .punct ":" :: rest =>
      let p := consumeTail (Tok.punct ":" :: rest)
      .ok (.traitDef ⟨attrs, vis, p.1⟩, p.2)
  | .ident "where" :: rest =>
      let p := consumeTail (Tok.ident "where" :: rest)
      .ok (.traitDef ⟨attrs, vis, p.1⟩, p.2)
  | .punct "=" :: rest =>
      let p := consumeTail (Tok.punct "=" :: rest)
      .ok (.traitAliasItem ⟨attrs, vis, p.1⟩, p.2)
  | other => .error ⟨["curly braces", "`:`", "`where`", "`=`"], other.length⟩

/-- Does the stream start with a brace group? (`lookahead.peek(token::Brace)`). -/
def peekBraceGroup : List Tok → Bool
  | .group .brace _ :: _ => true
  | _ => false

/-- Does the stream start with a literal? (`lookahead.peek(LitStr)`). -/
def peekLitStr : List Tok → Bool
  | .lit _ :: _ => true
  | _ => false

/-- The expected-token descriptions accumulated by the top-level
lookahead when every branch of the `Item` dispatch has failed, in the
order the source peeks them (src/item.rs lines 1144-1236); the macro
branch's six path peeks are evaluated only under inherited visibility.
The lookahead machinery itself (lookahead.rs) is modelled from the spec:
each failed peek pushes its token description. -/
def topExpected (inherited : Bool) : List String :=
  ["`extern`", "`use`", "`static`", "`const`", "`unsafe`", "`async`",
   "`fn`", "`mod`", "`type`", "`existential`", "`struct`", "`enum`",
   "`union`", "`trait`", "`auto`", "`impl`", "`default`", "`macro`"] ++
  (if inherited then
    ["identifier", "`self`", "`super`", "`extern`", "`crate`", "`::`"]
   else [])

/-- The outcome of the branch-selecting lookahead of `Parse for Item`
(src/item.rs lines 1144-1237): which sub-parser the dispatch commits to,
or the aggregated lookahead error. -/
inductive Dispatch where
  | dExternCrate
  | dFn
  | dForeignMod
  | dUse
  | dStatic
  | dConst
  | dTraitRaw
  | dImpl
  | dMod
  | dType
  | dExistential
  | dStruct
  | dEnum
  | dUnion
  | dTraitOrAlias
  | dMacro2
  | dMacro
  | dErr (expected : List String) (pos : Nat)
deriving DecidableEq, Repr

/-- The inner lookahead of the `extern` branch (src/item.rs lines
1145-1166). -/
def selectExtern (ahead : List Tok) : Dispatch :=
  if peekKw "crate" ahead.tail then .dExternCrate
  else if peekKw "fn" ahead.tail then .dFn
  else if peekBraceGroup ahead.tail then .dForeignMod
  else if peekLitStr ahead.tail then
    if peekBraceGroup ahead.tail.tail then .dForeignMod
    else if peekKw "fn" ahead.tail.tail then .dFn
    else .dErr ["curly braces", "`fn`"] ahead.tail.tail.length
  else .dErr ["`crate`", "`fn`", "curly braces", "string literal"] ahead.tail.length

/-- The inner lookahead of the `const` branch (src/item.rs lines
1171-1184): identifier or underscore selects the constant, the function
qualifiers select the function. -/
def selectConst (ahead : List Tok) : Dispatch :=
  if peekIdent ahead.tail || peekKw "_" ahead.tail then .dConst
  else if peekKw "unsafe" ahead.tail || peekKw "async" ahead.tail ||
          peekKw "extern" ahead.tail || peekKw "fn" ahead.tail then .dFn
  else .dErr ["identifier", "`_`", "`unsafe`", "`async`", "`extern`", "`fn`"] ahead.tail.length

/-- The inner lookahead of the `unsafe` branch (src/item.rs lines
1185-1201). -/
def selectUnsafe (ahead : List Tok) : Dispatch :=
  if peekKw "trait" ahead.tail || (peekKw "auto" ahead.tail && peekSecondKw "trait" ahead.tail) then
    .dTraitRaw
  else if peekKw "impl" ahead.tail then .dImpl
  else if peekKw "async" ahead.tail || peekKw "extern" ahead.tail || peekKw "fn" ahead.tail then
    .dFn
  else .dErr ["`trait`", "`auto`", "`impl`", "`async`", "`extern`", "`fn`"] ahead.tail.length

/-- The branch-selecting lookahead chain of `Parse for Item`
(src/item.rs lines 1144-1237), written over the speculative fork `ahead`
(positioned after the visibility).  The conditions and their order are
the source's, one `else if` per branch. -/
def selectBranch (vis : Visibility) (ahead : List Tok) : Dispatch :=
  if peekKw "extern" ahead then selectExtern ahead
  else if peekKw "use" ahead then .dUse
  else if peekKw "static" ahead then .dStatic
  else if peekKw "const" ahead then selectConst ahead
  else if peekKw "unsafe" ahead then selectUnsafe ahead
  else if peekKw "async" ahead || peekKw "fn" ahead then .dFn
  else if peekKw "mod" ahead then .dMod
  else if peekKw "type" ahead then .dType
  else if peekKw "existential" ahead then .dExistential
  else if peekKw "struct" ahead then .dStruct
  else if peekKw "enum" ahead then .dEnum
  else if peekKw "union" ahead && peekSecondIdent ahead then .dUnion
  else if peekKw "trait" ahead then .dTraitOrAlias
  else if peekKw "auto" ahead && peekSecondKw "trait" ahead then .dTraitRaw
  else if peekKw "impl" ahead || (peekKw "default" ahead && !peekSecondBang ahead) then .dImpl
  else if peekKw "macro" ahead then .dMacro2
  else if vis.isInherited &&
          (peekIdent ahead || peekKw "self" ahead || peekKw "super" ahead ||
           peekKw "extern" ahead || peekKw "crate" ahead || peekPunct "::" ahead) then .dMacro
  else .dErr (topExpected vis.isInherited) ahead.length

/-- The committed sub-parse of the selected branch, run on `input` (the
cursor before the visibility, after the pre-dispatch attributes), exactly
as each `input.parse().map(Item::...)` in the source. -/
def runBranch (input : List Tok) : Dispatch → Except Err (Item × List Tok)
  | .dExternCrate =>
      match parseRawItem input with
      | .ok (r, rest) => .ok (.externCrateItem r, rest)
      | .error e => .error e
  | .dFn =>
      match parseItemFn input with
      | .ok (f, rest) => .ok (.fnItem f, rest)
      | .error e => .error e
  | .dForeignMod =>
      match parseItemForeignMod input with
      | .ok (f, rest) => .ok (.foreignModItem f, rest)
      | .error e => .error e
  | .dUse =>
      match parseRawItem input with
      | .ok (r, rest) => .ok (.useItem r, rest)
      | .error e => .error e
  | .dStatic =>
      match parseRawItem input with
      | .ok (r, rest) => .ok (.staticItem r, rest)
      | .error e => .error e
  | .dConst =>
      match parseItemConst input with
      | .ok (c, rest) => .ok (.constItem c, rest)
      | .error e => .error e
  | .dTraitRaw =>
      match parseRawItem input with
      | .ok (r, rest) => .ok (.traitDef r, rest)
      | .error e => .error e
  | .dImpl =>
      match parseItemImpl input with
      | .ok (i, rest) => .ok (.implBlock i, rest)
      | .error e => .error e
  | .dMod =>
      match parseItemMod input with
      | .ok (m, rest) => .ok (.modItem m, rest)
      | .error e => .error e
  | .dType =>
      match parseRawItem input with
      | .ok (r, rest) => .ok (.typeAliasItem r, rest)
      | .error e => .error e
  | .dExistential =>
      match itemExistential input with
      | .ok (ts, rest) => .ok (.verbatim ts, rest)
      | .error e => .error e
  | .dStruct =>
      match parseItemStruct input with
      | .ok (s, rest) => .ok (.structItem s, rest)
      | .error e => .error e
  | .dEnum =>
      match parseItemEnum input with
      | .ok (e, rest) => .ok (.enumItem e, rest)
      | .error e => .error e
  | .dUnion =>
      match parseItemUnion input with
      | .ok (u, rest) => .ok (.unionItem u, rest)
      | .error e => .error e
  | .dTraitOrAlias => parseTraitOrAlias input
  | .dMacro2 =>
      match parseRawItem input with
      | .ok (r, rest) => .ok (.macro2Item r, rest)
      | .error e => .error e
  | .dMacro =>
      match parseItemMacro input with
      | .ok (m, rest) => .ok (.macroItem m, rest)
      | .error e => .error e
  | .dErr expected pos => .error ⟨expected, pos⟩

/-- The branch dispatch of `Parse for Item` (src/item.rs lines
1144-1237): select by lookahead, then run the committed sub-parse. -/
def itemDispatch (input : List Tok) (vis : Visibility) (ahead : List Tok) :
    Except Err (Item × List Tok) :=
  runBranch input (selectBranch vis ahead)

/-- The attribute reattachment of `Parse for Item` (src/item.rs lines
1239-1262): the pre-dispatch outer attributes are prepended to the
variant's own attribute list.  `Verbatim` returns early without
reattachment; the sentinel is unreachable in the source (modelled as an
identity). -/
def mergeItemAttrs (pre : List Attribute) : Item → Item
  | .constItem c => .constItem { c with attrs := pre ++ c.attrs }
  | .enumItem e => .enumItem { e with attrs := pre ++ e.attrs }
  | .externCrateItem r => .externCrateItem { r with attrs := pre ++ r.attrs }
  | .fnItem f => .fnItem { f with attrs := pre ++ f.attrs }
  | .foreignModItem f => .foreignModItem { f with attrs := pre ++ f.attrs }
  | .implBlock i => .implBlock { i with attrs := pre ++ i.attrs }
  | .macroItem m => .macroItem { m with attrs := pre ++ m.attrs }
  | .macro2Item r => .macro2Item { r with attrs := pre ++ r.attrs }
  | .modItem m => .modItem { m with attrs := pre ++ m.attrs }
  | .staticItem r => .staticItem { r with attrs := pre ++ r.attrs }
  | .structItem s => .structItem { s with attrs := pre ++ s.attrs }
  | .traitDef r => .traitDef { r with attrs := pre ++ r.attrs }
  | .traitAliasItem r => .traitAliasItem { r with attrs := pre ++ r.attrs }
  | .typeAliasItem r => .typeAliasItem { r with attrs := pre ++ r.attrs }
  | .unionItem u => .unionItem { u with attrs := pre ++ u.attrs }
  | .useItem r => .useItem { r with attrs := pre ++ r.attrs }
  | .verbatim ts => .verbatim ts
  | .nonexhaustive => .nonexhaustive

/-- `Parse for Item` (src/item.rs lines 1138-1265): pre-dispatch outer
attributes, speculative visibility on a fork, branch dispatch, then
attribute reattachment (skipped for `Verbatim`). -/
def parseItem (toks : List Tok) : Except Err (Item × List Tok) :=
  let (attrs, input) := parseOuterAttrs toks
  let (vis, ahead) := parseVisibility input
  match itemDispatch input vis ahead with
  | .ok (item, rest) => .ok (mergeItemAttrs attrs item, rest)
  | .error e => .error e

/-! ### The struct printer (src/item.rs) -/

/-- The shared head of the struct printer: outer attributes, visibility,
the struct keyword, name and generic parameters. -/
def structHead (s : ItemStruct) : List Tok :=
  printAttrsOuter s.attrs ++ printVisibility s.vis ++
  [Tok.ident "struct", Tok.ident s.ident] ++ printGenerics s.generics

/-- `ToTokens for ItemStruct` (src/item.rs lines 2702-2725):
`TokensOrDefault(&self.semi_token)` synthesizes the terminator for the
tuple and unit forms; the named form never emits one. -/
def printItemStruct (s : ItemStruct) : List Tok :=
  structHead s ++
  match s.fields with
  | .named ts => printWhereOpt s.generics.whereClause ++ [Tok.group .brace ts]
  | .unnamed ts =>
      [Tok.group .paren ts] ++ printWhereOpt s.generics.whereClause ++ [Tok.punct ";"]
  | .unit => printWhereOpt s.generics.whereClause ++ [Tok.punct ";"]

/-! ### The derive-input projection (src/item.rs, src/derive.rs)

The `DeriveInput` / `Data` shapes live in a source file outside this
snapshot; they are modelled from the spec (§6: a narrower
name/generics/attrs/vis/body-kind shape) with exactly the fields the
`From` conversions in src/item.rs lines 467-545 exchange. -/

inductive Data where
  | dataStruct (fields : Fields) (semi : Option Unit)
  | dataEnum (variants : List Tok)
  | dataUnion (fields : List Tok)

structure DeriveInput where
  attrs : List Attribute
  vis : Visibility
  ident : String
  generics : Generics
  data : Data

/-- `From<DeriveInput> for Item` (src/item.rs lines 467-498): an
exhaustive match over the three `Data` variants, no default arm. -/
def itemFromDerive (input : DeriveInput) : Item :=
  match input.data with
  | .dataStruct fields semi =>
      .structItem ⟨input.attrs, input.vis, input.ident, input.generics, fields, semi⟩
  | .dataEnum variants =>
      .enumItem ⟨input.attrs, input.vis, input.ident, input.generics, variants⟩
  | .dataUnion fields =>
      .unionItem ⟨input.attrs, input.vis, input.ident, input.generics, fields⟩

/-- `From<ItemStruct> for DeriveInput` (src/item.rs lines 500-514). -/
def deriveFromItemStruct (i : ItemStruct) : DeriveInput :=
  ⟨i.attrs, i.vis, i.ident, i.generics, .dataStruct i.fields i.semi⟩

/-- `From<ItemEnum> for DeriveInput` (src/item.rs lines 516-530). -/
def deriveFromItemEnum (i : ItemEnum) : DeriveInput :=
  ⟨i.attrs, i.vis, i.ident, i.generics, .dataEnum i.variants⟩

/-- `From<ItemUnion> for DeriveInput` (src/item.rs lines 532-545). -/
def deriveFromItemUnion (i : ItemUnion) : DeriveInput :=
  ⟨i.attrs, i.vis, i.ident, i.generics, .dataUnion i.fields⟩

/-! ### Specification-side predicates

These definitions follow the words of the specification, independently of
the parser embedding, so that the receiver-classification claim can be
stated as a genuine equivalence between the spec's grammar and the
code. -/

/-- The disjoint-field borrow-set grammar as the spec words it (§4.4): a
comma-separated list of `[mut] identifier` entries, optional trailing
comma. -/
def specBorrowEntries : List Tok → Bool
  | [] => true
  | [.ident s] => s != "mut" && !reservedWord s
  | [.ident s, .ident x] => s == "mut" && !reservedWord x
  | .ident s :: .ident x :: .punct c :: rest =>
      s == "mut" && !reservedWord x && c == "," && specBorrowEntries rest
  | .ident _ :: .ident _ :: _ => false
  | .ident s :: .punct c :: rest =>
      s != "mut" && !reservedWord s && c == "," && specBorrowEntries rest
  | _ => false

/-- After `&[lifetime]`: an optional `mut` and then the `self` keyword. -/
def ampTailSpec : List Tok → Bool
  | .ident m :: rest =>
      if m == "mut" then
        match rest with
        | .ident x :: _ => x == "self"
        | _ => false
      else m == "self"
  | _ => false

/-- The three leading receiver forms as claim C4 words them: `mut self`,
`&[lifetime][mut] self`, or `self` optionally followed by a dot and a
braced borrow set. -/
def receiverFormSpec : List Tok → Bool
  | .ident s :: rest =>
      if s == "mut" then
        match rest with
        | .ident x :: _ => x == "self"
        | _ => false
      else if s == "self" then
        match rest with
        | .punct c :: rest2 =>
            if c == "." then
              match rest2 with
              | .group .brace ts :: _ => specBorrowEntries ts
              | _ => false
            else true
        | _ => true
      else false
  | .punct p :: rest =>
      p == "&" &&
      (match rest with
       | .lifetime _ :: rest2 => ampTailSpec rest2
       | _ => ampTailSpec rest)
  | _ => false

/-- Did `FnArg::parse` classify the parameter as a receiver? -/
def isReceiverArg : Except Err (FnArg × List Tok) → Bool
  | .ok (.receiver _, _) => true
  | _ => false

/-- Does a successful receiver match leave a colon as the next token
(the condition under which `FnArg::parse` abandons the fork)? -/
def colonAfterReceiver (toks : List Tok) : Bool :=
  match parseReceiver toks with
  | .ok (_, rest) => peekPunct ":" rest
  | .error _ => false

/-- The conjunction of the negations of every branch condition of the
top-level `Item` dispatch: the situation in which the source's
`lookahead.error()` is returned. -/
def noTopBranch (vis : Visibility) (ahead : List Tok) : Prop :=
  peekKw "extern" ahead = false ∧ peekKw "use" ahead = false ∧
  peekKw "static" ahead = false ∧ peekKw "const" ahead = false ∧
  peekKw "unsafe" ahead = false ∧ peekKw "async" ahead = false ∧
  peekKw "fn" ahead = false ∧ peekKw "mod" ahead = false ∧
  peekKw "type" ahead = false ∧ peekKw "existential" ahead = false ∧
  peekKw "struct" ahead = false ∧ peekKw "enum" ahead = false ∧
  (peekKw "union" ahead = false ∨ peekSecondIdent ahead = false) ∧
  peekKw "trait" ahead = false ∧
  (peekKw "auto" ahead = false ∨ peekSecondKw "trait" ahead = false) ∧
  peekKw "impl" ahead = false ∧
  (peekKw "default" ahead = false ∨ peekSecondBang ahead = true) ∧
  peekKw "macro" ahead = false ∧
  (vis.isInherited = false ∨
   (peekIdent ahead = false ∧ peekKw "self" ahead = false ∧
    peekKw "super" ahead = false ∧ peekKw "crate" ahead = false ∧
    peekPunct "::" ahead = false))

instance (vis : Visibility) (ahead : List Tok) : Decidable (noTopBranch vis ahead) := by
  unfold noTopBranch
  infer_instance

/-- The token stream of a run of outer attribute annotations with the
given bracket-group contents. -/
def attrStream : List (List Tok) → List Tok
  | [] => []
  | c :: cs => .punct "#" :: .group .bracket c :: attrStream cs

/-- Does the stream start like an outer attribute? -/
def isOuterAttrStart : List Tok → Bool
  | .punct s :: .group d _ :: _ => s == "#" && d == Delim.bracket
  | _ => false

/-! ### Helper lemmas -/

theorem parseBorrowList_isOk (ts : List Tok) :
    (parseBorrowList ts).isOk = specBorrowEntries ts := by
  induction ts using parseBorrowList.induct <;>
    simp_all [parseBorrowList, specBorrowEntries, Except.isOk, Except.toBool]

theorem parsePartialBorrows_isOk (toks : List Tok) :
    (parsePartialBorrows toks).isOk =
      (match toks with
       | .group .brace ts :: _ => specBorrowEntries ts
       | _ => false) := by
  unfold parsePartialBorrows
  split
  case _ ts rest =>
    rw [← parseBorrowList_isOk]
    cases parseBorrowList ts <;> rfl
  case _ h =>
    cases toks with
    | nil => rfl
    | cons t rest =>
        cases t with
        | group d ts =>
            cases d with
            | brace => exact absurd rfl (h ts rest)
            | paren => rfl
            | bracket => rfl
        | ident s => rfl
        | punct s => rfl
        | lit s => rfl
        | lifetime s => rfl

theorem parseAmpTail_isOk (lt : Option String) (ts : List Tok) :
    (parseAmpTail lt ts).isOk = ampTailSpec ts := by
  cases ts with
  | nil => rfl
  | cons u tl =>
    cases u with
    | ident m =>
        by_cases hm : m == "mut"
        · simp only [parseAmpTail, ampTailSpec, hm, if_true]
          cases tl with
          | nil => rfl
          | cons v tv =>
              cases v with
              | ident x =>
                  by_cases hx : x == "self" <;>
                    simp [parseKwTok, Except.isOk, Except.toBool, hx]
              | punct c => rfl
              | lit c => rfl
              | lifetime c => rfl
              | group d g => rfl
        · simp only [parseAmpTail, ampTailSpec, hm, if_false, Bool.false_eq_true]
          by_cases hs : m == "self" <;> simp [parseKwTok, Except.isOk, Except.toBool, hs]
    | punct c => rfl
    | lit c => rfl
    | lifetime c => rfl
    | group d g => rfl

theorem parseReceiver_isOk (toks : List Tok) :
    (parseReceiver toks).isOk = receiverFormSpec toks := by
  cases toks with
  | nil => rfl
  | cons t rest =>
    cases t with
    | lit s => rfl
    | lifetime s => rfl
    | group d ts => rfl
    | ident s =>
        simp only [parseReceiver, receiverFormSpec]
        by_cases hm : s == "mut"
        · simp only [hm, if_true]
          cases rest with
          | nil => rfl
          | cons u tl =>
              cases u with
              | ident v =>
                  by_cases hv : v == "self" <;>
                    simp [parseKwTok, Except.isOk, Except.toBool, hv]
              | punct c => rfl
              | lit c => rfl
              | lifetime c => rfl
              | group d g => rfl
        · by_cases hs : s == "self"
          · simp only [hm, hs, if_true, if_false, Bool.false_eq_true]
            cases rest with
            | nil => rfl
            | cons u tl =>
                cases u with
                | punct c =>
                    by_cases hc : c == "."
                    · simp only [hc, if_true]
                      have h2 := parsePartialBorrows_isOk tl
                      cases hpb : parsePartialBorrows tl with
                      | ok v =>
                          rw [hpb] at h2
                          cases v with
                          | mk pb r => simpa using h2
                      | error e =>
                          rw [hpb] at h2
                          simpa using h2
                    · simp [Except.isOk, Except.toBool, hc]
                | ident v => rfl
                | lit c => rfl
                | lifetime c => rfl
                | group d g => rfl
          · simp [Except.isOk, Except.toBool, hm, hs]
    | punct p =>
        simp only [parseReceiver, receiverFormSpec]
        by_cases hp : p == "&"
        · simp only [hp, if_true, Bool.true_and]
          cases rest with
          | nil => exact parseAmpTail_isOk none []
          | cons u tl =>
              cases u with
              | lifetime l => exact parseAmpTail_isOk (some l) tl
              | ident m => exact parseAmpTail_isOk none (.ident m :: tl)
              | punct c => exact parseAmpTail_isOk none (.punct c :: tl)
              | lit c => exact parseAmpTail_isOk none (.lit c :: tl)
              | group d g => exact parseAmpTail_isOk none (.group d g :: tl)
        · simp [Except.isOk, Except.toBool, hp]

theorem parseFnArg_receiver_iff (toks : List Tok) :
    isReceiverArg (parseFnArg toks) =
      (receiverFormSpec (parseOuterAttrs toks).2 &&
       !colonAfterReceiver (parseOuterAttrs toks).2) := by
  unfold parseFnArg colonAfterReceiver isReceiverArg
  rw [← parseReceiver_isOk]
  cases hr : parseReceiver (parseOuterAttrs toks).2 with
  | ok v =>
      cases v with
      | mk r rest =>
          by_cases hc : peekPunct ":" rest
          · cases ht : fnArgTyped (parseOuterAttrs toks).2 with
            | ok w => cases w; simp [hr, ht, Except.isOk, Except.toBool, hc]
            | error e => simp [hr, ht, Except.isOk, Except.toBool, hc]
          · simp [hr, Except.isOk, Except.toBool, hc]
  | error e =>
      cases ht : fnArgTyped (parseOuterAttrs toks).2 with
      | ok w => cases w; simp [hr, ht, Except.isOk, Except.toBool]
      | error e2 => simp [hr, ht, Except.isOk, Except.toBool]

theorem parseOuterAttrs_notStart (toks : List Tok) (h : isOuterAttrStart toks = false) :
    parseOuterAttrs toks = ([], toks) := by
  unfold parseOuterAttrs
  split
  case _ s d ts rest =>
    simp only [isOuterAttrStart] at h
    simp [h]
  case _ => rfl

theorem parseOuterAttrs_stream (cs : List (List Tok)) (rest : List Tok)
    (h : isOuterAttrStart rest = false) :
    parseOuterAttrs (attrStream cs ++ rest) =
      (cs.map (fun c => ⟨.outer, c⟩), rest) := by
  induction cs with
  | nil => simpa [attrStream] using parseOuterAttrs_notStart rest h
  | cons c cs ih => simp [attrStream, parseOuterAttrs, ih]

theorem mergeItemAttrs_union (pre : List Attribute) (it : Item) (u : ItemUnion)
    (h : mergeItemAttrs pre it = .unionItem u) : ∃ v, it = .unionItem v := by
  cases it <;> simp_all [mergeItemAttrs]

theorem parseTraitOrAlias_not_union (toks : List Tok) (it : Item) (rest : List Tok)
    (h : parseTraitOrAlias toks = .ok (it, rest)) (u : ItemUnion) :
    it ≠ .unionItem u := by
  unfold parseTraitOrAlias at h
  repeat any_goals split at h
  all_goals try rcases h with ⟨h1, h2⟩
  all_goals simp_all

theorem runBranch_union (input : List Tok) (d : Dispatch) (u : ItemUnion) (rest : List Tok)
    (h : runBranch input d = .ok (.unionItem u, rest)) : d = .dUnion := by
  cases d <;> first
    | rfl
    | (exact (parseTraitOrAlias_not_union _ _ _ h u rfl).elim)
    | (unfold runBranch at h
       repeat any_goals split at h
       all_goals simp_all)

theorem selectExtern_ne_union (ahead : List Tok) : selectExtern ahead ≠ .dUnion := by
  unfold selectExtern
  repeat any_goals split
  all_goals simp

theorem selectConst_ne_union (ahead : List Tok) : selectConst ahead ≠ .dUnion := by
  unfold selectConst
  repeat any_goals split
  all_goals simp

theorem selectUnsafe_ne_union (ahead : List Tok) : selectUnsafe ahead ≠ .dUnion := by
  unfold selectUnsafe
  repeat any_goals split
  all_goals simp

theorem selectBranch_union (vis : Visibility) (ahead : List Tok)
    (h : selectBranch vis ahead = .dUnion) :
    peekKw "union" ahead = true ∧ peekSecondIdent ahead = true := by
  unfold selectBranch at h
  by_cases h1 : peekKw "extern" ahead = true
  · rw [if_pos h1] at h; exact absurd h (selectExtern_ne_union ahead)
  · rw [if_neg h1] at h
    by_cases h2 : peekKw "use" ahead = true
    · rw [if_pos h2] at h; exact absurd h (by decide)
    · rw [if_neg h2] at h
      by_cases h3 : peekKw "static" ahead = true
      · rw [if_pos h3] at h; exact absurd h (by decide)
      · rw [if_neg h3] at h
        by_cases h4 : peekKw "const" ahead = true
        · rw [if_pos h4] at h; exact absurd h (selectConst_ne_union ahead)
        · rw [if_neg h4] at h
          by_cases h5 : peekKw "unsafe" ahead = true
          · rw [if_pos h5] at h; exact absurd h (selectUnsafe_ne_union ahead)
          · rw [if_neg h5] at h
            by_cases h6 : (peekKw "async" ahead || peekKw "fn" ahead) = true
            · rw [if_pos h6] at h; exact absurd h (by decide)
            · rw [if_neg h6] at h
              by_cases h7 : peekKw "mod" ahead = true
              · rw [if_pos h7] at h; exact absurd h (by decide)
              · rw [if_neg h7] at h
                by_cases h8 : peekKw "type" ahead = true
                · rw [if_pos h8] at h; exact absurd h (by decide)
                · rw [if_neg h8] at h
                  by_cases h9 : peekKw "existential" ahead = true
                  · rw [if_pos h9] at h; exact absurd h (by decide)
                  · rw [if_neg h9] at h
                    by_cases h10 : peekKw "struct" ahead = true
                    · rw [if_pos h10] at h; exact absurd h (by decide)
                    · rw [if_neg h10] at h
                      by_cases h11 : peekKw "enum" ahead = true
                      · rw [if_pos h11] at h; exact absurd h (by decide)
                      · rw [if_neg h11] at h
                        by_cases h12 : (peekKw "union" ahead && peekSecondIdent ahead) = true
                        · exact And.intro (Bool.and_eq_true _ _ ▸ h12).1 (Bool.and_eq_true _ _ ▸ h12).2
                        · rw [if_neg h12] at h
                          by_cases h13 : peekKw "trait" ahead = true
                          · rw [if_pos h13] at h; exact absurd h (by decide)
                          · rw [if_neg h13] at h
                            by_cases h14 : (peekKw "auto" ahead && peekSecondKw "trait" ahead) = true
                            · rw [if_pos h14] at h; exact absurd h (by decide)
                            · rw [if_neg h14] at h
                              by_cases h15 : (peekKw "impl" ahead || (peekKw "default" ahead && !peekSecondBang ahead)) = true
                              · rw [if_pos h15] at h; exact absurd h (by decide)
                              · rw [if_neg h15] at h
                                by_cases h16 : peekKw "macro" ahead = true
                                · rw [if_pos h16] at h; exact absurd h (by decide)
                                · rw [if_neg h16] at h
                                  by_cases h17 : (vis.isInherited && (peekIdent ahead || peekKw "self" ahead || peekKw "super" ahead || peekKw "extern" ahead || peekKw "crate" ahead || peekPunct "::" ahead)) = true
                                  · rw [if_pos h17] at h; exact absurd h (by decide)
                                  · rw [if_neg h17] at h; exact absurd h (by simp)

theorem selectBranch_noBranch (vis : Visibility) (ahead : List Tok)
    (h : noTopBranch vis ahead) :
    selectBranch vis ahead = .dErr (topExpected vis.isInherited) ahead.length := by
  obtain ⟨h1, h2, h3, h4, h5, h6, h7, h8, h9, h10, h11, h12, h13, h14, h15, h16,
    h17, h18, h19⟩ := h
  have hAsyncFn : (peekKw "async" ahead || peekKw "fn" ahead) = false := by
    simp [h6, h7]
  have hUnion : (peekKw "union" ahead && peekSecondIdent ahead) = false := by
    rcases h13 with h | h <;> simp [h]
  have hAuto : (peekKw "auto" ahead && peekSecondKw "trait" ahead) = false := by
    rcases h15 with h | h <;> simp [h]
  have hImplDef :
      (peekKw "impl" ahead || (peekKw "default" ahead && !peekSecondBang ahead)) = false := by
    rcases h17 with h | h <;> simp [h16, h]
  simp only [selectBranch, h1, h2, h3, h4, h5, hAsyncFn, h8, h9, h10, h11, h12,
    hUnion, h14, hAuto, hImplDef, h18, Bool.false_eq_true, if_false]
  rcases h19 with h | ⟨a, b, c, d, e⟩
  · simp [h]
  · simp [a, b, c, d, e]

theorem selectBranch_const (vis : Visibility) (tl : List Tok) :
    selectBranch vis (.ident "const" :: tl) = selectConst (.ident "const" :: tl) := by
  simp [selectBranch, peekKw]

theorem parseItem_eq (toks : List Tok) (attrs : List Attribute) (input : List Tok)
    (vis : Visibility) (ahead : List Tok)
    (h1 : parseOuterAttrs toks = (attrs, input))
    (h2 : parseVisibility input = (vis, ahead)) :
    parseItem toks =
      match runBranch input (selectBranch vis ahead) with
      | .ok (item, rest) => .ok (mergeItemAttrs attrs item, rest)
      | .error e => .error e := by
  unfold parseItem itemDispatch
  simp only [h1, h2]

/-! ### Claim theorems -/

/-- Claim C1: the round-trip invariant fails on the code at the
accepted input `existential type A : ;` — the parser accepts it (the
bound list may be empty) but the re-serialized Verbatim stream drops the
parsed colon, so the printed token sequence is strictly shorter than the
input and is not token-equivalent to it. -/
theorem c1_existential_colon_dropped :
    parseItem [Tok.ident "existential", Tok.ident "type", Tok.ident "A",
               Tok.punct ":", Tok.punct ";"] =
      .ok (.verbatim [Tok.ident "existential", Tok.ident "type", Tok.ident "A",
                      Tok.punct ";"], []) ∧
    ([Tok.ident "existential", Tok.ident "type", Tok.ident "A",
      Tok.punct ";"] : List Tok).length <
      ([Tok.ident "existential", Tok.ident "type", Tok.ident "A",
        Tok.punct ":", Tok.punct ";"] : List Tok).length :=
  ⟨rfl, by decide⟩

/-- Claim C4: `FnArg::parse` classifies a parameter as a receiver
exactly when it begins with one of the three leading receiver forms
(`mut self`, `&[lifetime][mut] self`, `self` optionally followed by a
dot and a braced borrow set) and the match is not followed by a colon;
`&mut self` parses to a full-reference receiver with no lifetime and a
mutability marker, while `self: Box<Self>` parses to a typed argument
whose pattern is the identifier `self`. -/
theorem c4_receiver_classification :
    (∀ toks : List Tok, (parseReceiver toks).isOk = receiverFormSpec toks) ∧
    (∀ toks : List Tok,
       isReceiverArg (parseFnArg toks) =
         (receiverFormSpec (parseOuterAttrs toks).2 &&
          !colonAfterReceiver (parseOuterAttrs toks).2)) ∧
    parseFnArg [Tok.punct "&", Tok.ident "mut", Tok.ident "self"] =
      .ok (.receiver ⟨[], .fullRef none (some ())⟩, []) ∧
    parseFnArg [Tok.ident "self", Tok.punct ":", Tok.ident "Box", Tok.punct "<",
                Tok.ident "Self", Tok.punct ">"] =
      .ok (.typed ⟨[], .identPat ⟨none, "self"⟩,
                   .opaqueTy [Tok.ident "Box", Tok.punct "<", Tok.ident "Self",
                              Tok.punct ">"]⟩, []) :=
  ⟨parseReceiver_isOk, parseFnArg_receiver_iff, rfl, rfl⟩

/-- Claim C5: parsing the parameter `self.{mut a, b}` yields a receiver
with the partial-borrow reference carrying `[(mut, a), (none, b)]` in
order, and printing that receiver reproduces the identical token
sequence. -/
theorem c5_partial_borrow_roundtrip :
    parseFnArg [Tok.ident "self", Tok.punct ".",
                Tok.group .brace [Tok.ident "mut", Tok.ident "a", Tok.punct ",",
                                  Tok.ident "b"]] =
      .ok (.receiver ⟨[], .partialRef ⟨[⟨some (), "a"⟩, ⟨none, "b"⟩], false⟩⟩, []) ∧
    printReceiver ⟨[], .partialRef ⟨[⟨some (), "a"⟩, ⟨none, "b"⟩], false⟩⟩ =
      [Tok.ident "self", Tok.punct ".",
       Tok.group .brace [Tok.ident "mut", Tok.ident "a", Tok.punct ",",
                         Tok.ident "b"]] :=
  ⟨rfl, rfl⟩

/-- Claim C8: the struct printer is total and synthesizes the required
terminator: for named fields it prints the where clause and the brace
group with no terminator; for tuple and unit forms it appends a `;`
(the stored token when present, the default token otherwise — the token
carries no data, so a `;` is emitted in both cases). -/
theorem c8_struct_print_total (s : ItemStruct) :
    (∀ ts, s.fields = .named ts →
       printItemStruct s =
         structHead s ++ printWhereOpt s.generics.whereClause ++ [Tok.group .brace ts]) ∧
    (∀ ts, s.fields = .unnamed ts →
       printItemStruct s =
         structHead s ++ [Tok.group .paren ts] ++
           printWhereOpt s.generics.whereClause ++ [Tok.punct ";"]) ∧
    (s.fields = .unit →
       printItemStruct s =
         structHead s ++ printWhereOpt s.generics.whereClause ++ [Tok.punct ";"]) := by
  refine ⟨fun ts hf => ?_, fun ts hf => ?_, fun hf => ?_⟩ <;>
    simp [printItemStruct, hf, List.append_assoc]

/-- Witness for C8 at a concrete unit struct with no stored
terminator. -/
theorem c8_struct_print_total_witness :
    printItemStruct ⟨[], .inherited, "S", ⟨none, none⟩, .unit, none⟩ =
      structHead ⟨[], .inherited, "S", ⟨none, none⟩, .unit, none⟩ ++
        printWhereOpt (⟨none, none⟩ : Generics).whereClause ++ [Tok.punct ";"] :=
  (c8_struct_print_total ⟨[], .inherited, "S", ⟨none, none⟩, .unit, none⟩).2.2 rfl

/-- Claim C9: the derive-input projection is lossless in both
directions: converting a struct, enum or union item into `DeriveInput`
and back restores the item with all shared fields intact, and every
`DeriveInput` round-trips through the corresponding `Item` variant (the
conversion matches exhaustively over the three `Data` variants). -/
theorem c9_derive_roundtrip :
    (∀ s : ItemStruct, itemFromDerive (deriveFromItemStruct s) = .structItem s) ∧
    (∀ e : ItemEnum, itemFromDerive (deriveFromItemEnum e) = .enumItem e) ∧
    (∀ u : ItemUnion, itemFromDerive (deriveFromItemUnion u) = .unionItem u) ∧
    (∀ d : DeriveInput,
       (∃ s, itemFromDerive d = .structItem s ∧ deriveFromItemStruct s = d) ∨
       (∃ e, itemFromDerive d = .enumItem e ∧ deriveFromItemEnum e = d) ∨
       (∃ u, itemFromDerive d = .unionItem u ∧ deriveFromItemUnion u = d)) := by
  refine ⟨fun s => rfl, fun e => rfl, fun u => rfl, fun d => ?_⟩
  obtain ⟨attrs, vis, ident, generics, data⟩ := d
  cases data with
  | dataStruct fields semi =>
      exact Or.inl ⟨⟨attrs, vis, ident, generics, fields, semi⟩, rfl, rfl⟩
  | dataEnum variants =>
      exact Or.inr (Or.inl ⟨⟨attrs, vis, ident, generics, variants⟩, rfl, rfl⟩)
  | dataUnion fields =>
      exact Or.inr (Or.inr ⟨⟨attrs, vis, ident, generics, fields⟩, rfl, rfl⟩)

/-- Claim C2: when the dispatch sees `const` after the speculative
visibility parse, one further token decides the branch — an identifier
or `_` commits to the constant parser (so a successful parse is an
`Item` constant), while `unsafe`, `async`, `extern` or `fn` commits to
the function parser; in particular `const fn foo() {}` parses to a
function item whose signature has constness set, and `const async fn
foo() {}` exercises the `async` alternative (a reserved word the
identifier lookahead rejects), yielding a function item with both
constness and asyncness set. -/
theorem c2_const_lookahead :
    (∀ (toks : List Tok) (attrs : List Attribute) (input : List Tok) (vis : Visibility)
       (tl rest : List Tok) (it : Item),
       parseOuterAttrs toks = (attrs, input) →
       parseVisibility input = (vis, .ident "const" :: tl) →
       (peekIdent tl || peekKw "_" tl) = true →
       parseItem toks = .ok (it, rest) →
       ∃ c, it = .constItem c) ∧
    (∀ (toks : List Tok) (attrs : List Attribute) (input : List Tok) (vis : Visibility)
       (tl rest : List Tok) (it : Item),
       parseOuterAttrs toks = (attrs, input) →
       parseVisibility input = (vis, .ident "const" :: tl) →
       (peekIdent tl || peekKw "_" tl) = false →
       (peekKw "unsafe" tl || peekKw "async" tl || peekKw "extern" tl || peekKw "fn" tl) = true →
       parseItem toks = .ok (it, rest) →
       ∃ f, it = .fnItem f) ∧
    parseItem [Tok.ident "const", Tok.ident "fn", Tok.ident "foo",
               Tok.group .paren [], Tok.group .brace []] =
      .ok (.fnItem ⟨[], .inherited,
            ⟨some (), none, none, none, "foo", ⟨none, none⟩, [], false, none, none⟩,
            []⟩, []) ∧
    parseItem [Tok.ident "const", Tok.ident "async", Tok.ident "fn", Tok.ident "foo",
               Tok.group .paren [], Tok.group .brace []] =
      .ok (.fnItem ⟨[], .inherited,
            ⟨some (), some (), none, none, "foo", ⟨none, none⟩, [], false, none, none⟩,
            []⟩, []) := by
  refine ⟨?_, ?_, rfl, rfl⟩
  · intro toks attrs input vis tl rest it h1 h2 hcond hp
    rw [parseItem_eq toks attrs input vis (.ident "const" :: tl) h1 h2] at hp
    rw [selectBranch_const] at hp
    have hsel : selectConst (.ident "const" :: tl) = .dConst := by
      simp [selectConst, hcond]
    rw [hsel] at hp
    unfold runBranch at hp
    cases hc : parseItemConst input with
    | error e => rw [hc] at hp; exact absurd hp (by simp)
    | ok v =>
        obtain ⟨c, r⟩ := v
        rw [hc] at hp
        simp only [Except.ok.injEq, Prod.mk.injEq] at hp
        exact ⟨_, hp.1.symm⟩
  · intro toks attrs input vis tl rest it h1 h2 hcond1 hcond2 hp
    rw [parseItem_eq toks attrs input vis (.ident "const" :: tl) h1 h2] at hp
    rw [selectBranch_const] at hp
    have hsel : selectConst (.ident "const" :: tl) = .dFn := by
      simp [selectConst, hcond1, hcond2]
    rw [hsel] at hp
    unfold runBranch at hp
    cases hc : parseItemFn input with
    | error e => rw [hc] at hp; exact absurd hp (by simp)
    | ok v =>
        obtain ⟨f, r⟩ := v
        rw [hc] at hp
        simp only [Except.ok.injEq, Prod.mk.injEq] at hp
        exact ⟨_, hp.1.symm⟩

/-- Witness for C2: both lookahead directions applied at concrete
declarations — the constant case at `const MAX : u16 = 65535 ;` and the
function case at the `async` alternative `const async fn foo() {}`,
whose second token the identifier lookahead rejects. -/
theorem c2_const_lookahead_witness :
    (∃ c, Item.constItem
        ⟨[], .inherited, "MAX", .opaqueTy [Tok.ident "u16"], [Tok.lit "65535"]⟩ =
        Item.constItem c) ∧
    (∃ f, Item.fnItem
        ⟨[], .inherited,
         ⟨some (), some (), none, none, "foo", ⟨none, none⟩, [], false, none, none⟩,
         []⟩ =
        Item.fnItem f) := by
  constructor
  · exact c2_const_lookahead.1
      [Tok.ident "const", Tok.ident "MAX", Tok.punct ":", Tok.ident "u16",
       Tok.punct "=", Tok.lit "65535", Tok.punct ";"]
      [] _ .inherited
      [Tok.ident "MAX", Tok.punct ":", Tok.ident "u16", Tok.punct "=",
       Tok.lit "65535", Tok.punct ";"]
      [] _ rfl rfl rfl rfl
  · exact c2_const_lookahead.2.1
      [Tok.ident "const", Tok.ident "async", Tok.ident "fn", Tok.ident "foo",
       Tok.group .paren [], Tok.group .brace []]
      [] _ .inherited
      [Tok.ident "async", Tok.ident "fn", Tok.ident "foo",
       Tok.group .paren [], Tok.group .brace []]
      [] _ rfl rfl rfl rfl (c2_const_lookahead.2.2.2)

/-- Counterexample to claim C3 as stated: the literal input `union!()`
does not parse to a macro item — a non-brace macro invocation item
requires a trailing semicolon (src/item.rs lines 1275-1279), so the
parse fails with a single `;` expectation. -/
theorem c3_union_bang_counterexample :
    parseItem [Tok.ident "union", Tok.punct "!", Tok.group .paren []] =
      .error ⟨["`;`"], 0⟩ := rfl

/-- Claim C3 (amended): `Item::parse` returns a union item only when the
token after `union` on the visibility fork is an identifier;
`union Foo { a: i32 }` parses to a union declaration, and `union!();`
(with the required semicolon) parses to a macro item whose path is the
single identifier `union`. -/
theorem c3_union_lookahead_amended :
    (∀ (toks : List Tok) (attrs : List Attribute) (input : List Tok) (vis : Visibility)
       (ahead rest : List Tok) (u : ItemUnion),
       parseOuterAttrs toks = (attrs, input) →
       parseVisibility input = (vis, ahead) →
       parseItem toks = .ok (.unionItem u, rest) →
       peekKw "union" ahead = true ∧ peekSecondIdent ahead = true) ∧
    parseItem [Tok.ident "union", Tok.ident "Foo",
               Tok.group .brace [Tok.ident "a", Tok.punct ":", Tok.ident "i32"]] =
      .ok (.unionItem ⟨[], .inherited, "Foo", ⟨none, none⟩,
                       [Tok.ident "a", Tok.punct ":", Tok.ident "i32"]⟩, []) ∧
    parseItem [Tok.ident "union", Tok.punct "!", Tok.group .paren [], Tok.punct ";"] =
      .ok (.macroItem ⟨[], none, ["union"], .paren, [], true⟩, []) := by
  refine ⟨?_, rfl, rfl⟩
  intro toks attrs input vis ahead rest u h1 h2 hp
  rw [parseItem_eq toks attrs input vis ahead h1 h2] at hp
  cases hd : runBranch input (selectBranch vis ahead) with
  | error e => rw [hd] at hp; exact absurd hp (by simp)
  | ok v =>
      obtain ⟨item, r⟩ := v
      rw [hd] at hp
      simp only [Except.ok.injEq, Prod.mk.injEq] at hp
      obtain ⟨v', hv⟩ := mergeItemAttrs_union attrs item u hp.1
      subst hv
      exact selectBranch_union vis ahead (runBranch_union input _ v' r hd)

/-- Witness for C3: the lookahead condition holds at the concrete union
declaration. -/
theorem c3_union_lookahead_amended_witness :
    peekKw "union" [Tok.ident "union", Tok.ident "Foo",
      Tok.group .brace [Tok.ident "a", Tok.punct ":", Tok.ident "i32"]] = true ∧
    peekSecondIdent [Tok.ident "union", Tok.ident "Foo",
      Tok.group .brace [Tok.ident "a", Tok.punct ":", Tok.ident "i32"]] = true :=
  c3_union_lookahead_amended.1
    [Tok.ident "union", Tok.ident "Foo",
     Tok.group .brace [Tok.ident "a", Tok.punct ":", Tok.ident "i32"]]
    [] _ .inherited _ [] _ rfl rfl (c3_union_lookahead_amended.2.1)

/-- Claim C6: for every body-bearing declaration parsed via
`Item::parse` — the four forms with an inner-attribute slot: function,
module, foreign block and impl block, each merging through
`private::attrs` — with outer annotations `A1, A2` before the
declaration and inner annotations `A3, A4` inside its body, the
resulting attribute list is exactly `[A1, A2, A3, A4]`: the
pre-dispatch outer attributes prepended before the variant's own
attributes, the inner ones after them. -/
theorem c6_attr_order (a1 a2 a3 a4 : List Tok) :
    parseItem (Tok.punct "#" :: Tok.group .bracket a1 ::
               Tok.punct "#" :: Tok.group .bracket a2 ::
               Tok.ident "fn" :: Tok.ident "foo" :: Tok.group .paren [] ::
               [Tok.group .brace
                 [Tok.punct "#", Tok.punct "!", Tok.group .bracket a3,
                  Tok.punct "#", Tok.punct "!", Tok.group .bracket a4]]) =
      .ok (.fnItem ⟨[⟨.outer, a1⟩, ⟨.outer, a2⟩, ⟨.inner, a3⟩, ⟨.inner, a4⟩],
            .inherited,
            ⟨none, none, none, none, "foo", ⟨none, none⟩, [], false, none, none⟩,
            []⟩, []) ∧
    parseItem (Tok.punct "#" :: Tok.group .bracket a1 ::
               Tok.punct "#" :: Tok.group .bracket a2 ::
               Tok.ident "mod" :: Tok.ident "m" ::
               [Tok.group .brace
                 [Tok.punct "#", Tok.punct "!", Tok.group .bracket a3,
                  Tok.punct "#", Tok.punct "!", Tok.group .bracket a4]]) =
      .ok (.modItem ⟨[⟨.outer, a1⟩, ⟨.outer, a2⟩, ⟨.inner, a3⟩, ⟨.inner, a4⟩],
            .inherited, "m", some [], false⟩, []) ∧
    parseItem (Tok.punct "#" :: Tok.group .bracket a1 ::
               Tok.punct "#" :: Tok.group .bracket a2 ::
               Tok.ident "extern" :: Tok.lit "C" ::
               [Tok.group .brace
                 [Tok.punct "#", Tok.punct "!", Tok.group .bracket a3,
                  Tok.punct "#", Tok.punct "!", Tok.group .bracket a4]]) =
      .ok (.foreignModItem ⟨[⟨.outer, a1⟩, ⟨.outer, a2⟩, ⟨.inner, a3⟩, ⟨.inner, a4⟩],
            ⟨some "C"⟩, []⟩, []) ∧
    parseItem (Tok.punct "#" :: Tok.group .bracket a1 ::
               Tok.punct "#" :: Tok.group .bracket a2 ::
               Tok.ident "impl" :: Tok.ident "T" ::
               [Tok.group .brace
                 [Tok.punct "#", Tok.punct "!", Tok.group .bracket a3,
                  Tok.punct "#", Tok.punct "!", Tok.group .bracket a4]]) =
      .ok (.implBlock ⟨[⟨.outer, a1⟩, ⟨.outer, a2⟩, ⟨.inner, a3⟩, ⟨.inner, a4⟩],
            none, none, [Tok.ident "T"], []⟩, []) :=
  ⟨rfl, rfl, rfl, rfl⟩

/-- Counterexample to claim C7 as stated: the example input `impure fn`
is not a no-branch input — `impure` is accepted by the macro-path
branch's identifier peek, so the dispatch commits to the macro parser
and fails there with the single expectation `!`, not with the
aggregated top-level list. -/
theorem c7_impure_fn_counterexample :
    parseItem [Tok.ident "impure", Tok.ident "fn"] = .error ⟨["`!`"], 1⟩ ∧
    (["`!`"] : List String) ≠ topExpected true :=
  ⟨rfl, by decide⟩

/-- Claim C7 (amended): whenever the top-level dispatch matches no
branch, `Item::parse` returns a single error positioned at the lookahead
token whose expectation list aggregates every alternative tried at that
decision point (the macro-path alternatives only under inherited
visibility), and no partial item is produced. -/
theorem c7_no_branch_aggregates :
    ∀ (toks : List Tok) (attrs : List Attribute) (input : List Tok) (vis : Visibility)
      (ahead : List Tok),
      parseOuterAttrs toks = (attrs, input) →
      parseVisibility input = (vis, ahead) →
      noTopBranch vis ahead →
      parseItem toks = .error ⟨topExpected vis.isInherited, ahead.length⟩ := by
  intro toks attrs input vis ahead h1 h2 h3
  rw [parseItem_eq toks attrs input vis ahead h1 h2, selectBranch_noBranch vis ahead h3]
  rfl

/-- Witness for C7 at a concrete no-branch input (a bare literal). -/
theorem c7_no_branch_aggregates_witness :
    parseItem [Tok.lit "42"] = .error ⟨topExpected true, 1⟩ :=
  c7_no_branch_aggregates [Tok.lit "42"] [] [Tok.lit "42"] .inherited [Tok.lit "42"]
    rfl rfl (by decide)

/-- Counterexample to claim C10 as stated: with a `pub` visibility
before `existential`, the returned Verbatim stream starts with the
re-parsed `pub` token, not with the `existential` keyword, so it does
not contain only the tokens from `existential` onward (the pre-dispatch
attributes are still discarded). -/
theorem c10_verbatim_counterexample :
    parseItem [Tok.punct "#", Tok.group .bracket [Tok.ident "a"],
               Tok.ident "pub", Tok.ident "existential", Tok.ident "type",
               Tok.ident "X", Tok.punct ":", Tok.ident "T", Tok.punct ";"] =
      .ok (.verbatim [Tok.ident "pub", Tok.ident "existential", Tok.ident "type",
                      Tok.ident "X", Tok.punct ":", Tok.ident "T", Tok.punct ";"], []) ∧
    Tok.ident "pub" ≠ Tok.ident "existential" :=
  ⟨rfl, by simp⟩

/-- Claim C10 (amended): when the Verbatim (`existential`) branch is
selected, the pre-dispatch outer attributes are discarded — for any run
of outer attributes, the returned Verbatim stream contains exactly the
tokens from the re-parsed visibility onward (from the `existential`
keyword when the visibility is inherited), so the attributes appear
neither in the tree nor in its reprint. -/
theorem c10_verbatim_attrs_discarded (cs : List (List Tok)) (withPub : Bool) :
    parseItem (attrStream cs ++
               (if withPub then [Tok.ident "pub"] else []) ++
               [Tok.ident "existential", Tok.ident "type", Tok.ident "X",
                Tok.punct ":", Tok.ident "T", Tok.punct ";"]) =
      .ok (.verbatim ((if withPub then [Tok.ident "pub"] else []) ++
                      [Tok.ident "existential", Tok.ident "type", Tok.ident "X",
                       Tok.punct ":", Tok.ident "T", Tok.punct ";"]), []) := by
  cases withPub with
  | true =>
      have h1 := parseOuterAttrs_stream cs
        ([Tok.ident "pub"] ++
         [Tok.ident "existential", Tok.ident "type", Tok.ident "X",
          Tok.punct ":", Tok.ident "T", Tok.punct ";"]) rfl
      have hred : (if (true : Bool) then [Tok.ident "pub"] else ([] : List Tok)) =
          [Tok.ident "pub"] := rfl
      rw [hred, List.append_assoc]
      rw [parseItem_eq _ _ _ .public
        [Tok.ident "existential", Tok.ident "type", Tok.ident "X",
         Tok.punct ":", Tok.ident "T", Tok.punct ";"]
        h1 rfl]
      rfl
  | false =>
      have h1 := parseOuterAttrs_stream cs
        [Tok.ident "existential", Tok.ident "type", Tok.ident "X",
         Tok.punct ":", Tok.ident "T", Tok.punct ";"] rfl
      have hred : (if (false : Bool) then [Tok.ident "pub"] else ([] : List Tok)) =
          [] := rfl
      rw [hred, List.append_nil]
      rw [parseItem_eq _ _ _ .inherited
        [Tok.ident "existential", Tok.ident "type", Tok.ident "X",
         Tok.punct ":", Tok.ident "T", Tok.punct ";"]
        h1 rfl]
      rfl

end Syn
